import Mathlib

/-!
# ParsiMoNe: dispatch and coordination harness

A shallow embedding of `src/learn_network.cpp`, `src/parsimone.cpp` and
`src/ProgramOptions.cpp`.  One process of the group is modelled as a function
of its communicator (rank and size), the program options and the behaviour of
the external collaborators (file system, JSON parser, learning algorithms,
data readers).  A run yields the list of externally visible events the
process issues, in program order, together with its result.
-/

namespace ParsiMoNe

/-! ## Element types and the set container -/

/-- The element types the dispatcher instantiates: `uint8_t` and `uint16_t`. -/
inductive Var
  | uint8_t
  | uint16_t
  deriving DecidableEq, Repr

/-- Width in bits of an element type. -/
def Var.bits : Var → Nat
  | .uint8_t => 8
  | .uint16_t => 16

/-- The conversion `static_cast<Var>(x)` of an unsigned value: reduction modulo `2 ^ bits`. -/
def static_cast (v : Var) (x : Nat) : Nat := x % 2 ^ v.bits

/-- Unsigned 32-bit subtraction, as in `s - 1` for `uint32_t s`. -/
def sub32 (a b : Nat) : Nat := (2 ^ 32 + a - b % 2 ^ 32) % 2 ^ 32

/-- The declarations `learn_network.cpp` uses from `common/UintSet.hpp`:
`maxSize<Element>()`, the default `Size` argument of `UintSet<Element>`, and
`UintSet<Element, Size>::capacity()`. -/
structure UintSetDecl where
  maxSize : Var → Nat
  defaultSize : Var → Nat
  capacity : Var → Nat → Nat

/-- Modelled from the spec: `common/UintSet.hpp` is not among the sources.  The
full range of an element type is `2 ^ bits` (256 and 65536), the default set
size is the full range, and a set of size `Size` has capacity `Size - 1`; this
gives the capacities 2047, 4095, 8191, 16383 and 65535 the spec lists for the
set sizes `65536 >> 5`, `>> 4`, `>> 3`, `>> 2` and `65536`. -/
def UintSet : UintSetDecl where
  maxSize v := 2 ^ v.bits
  defaultSize v := 2 ^ v.bits
  capacity _ size := size - 1

/-! ## Program options (`ProgramOptions.hpp`, `ProgramOptions.cpp`) -/

/-- The data members of `ProgramOptions` that hold option values. -/
structure ProgramOptions where
  m_logLevel : String
  m_logFile : String
  m_dataFile : String
  m_algoName : String
  m_outputDir : String
  m_configFile : String
  m_h5Path : String
  m_h5MatrixDataPath : String
  m_h5VarsDataPath : String
  m_h5ObsDataPath : String
  m_numVars : Nat
  m_numObs : Nat
  m_separator : Char
  m_parallelRead : Bool
  m_colObs : Bool
  m_varNames : Bool
  m_obsIndices : Bool
  m_learnNetwork : Bool
  m_forceParallel : Bool
  m_hostNames : Bool
  m_warmupMPI : Bool
  deriving DecidableEq, Repr

namespace ProgramOptions

def numVars (o : ProgramOptions) : Nat := o.m_numVars
def numObs (o : ProgramOptions) : Nat := o.m_numObs
def dataFile (o : ProgramOptions) : String := o.m_dataFile
def parallelRead (o : ProgramOptions) : Bool := o.m_parallelRead
def colObs (o : ProgramOptions) : Bool := o.m_colObs
def varNames (o : ProgramOptions) : Bool := o.m_varNames
def obsIndices (o : ProgramOptions) : Bool := o.m_obsIndices
def separator (o : ProgramOptions) : Char := o.m_separator
def algoName (o : ProgramOptions) : String := o.m_algoName
def learnNetwork (o : ProgramOptions) : Bool := o.m_learnNetwork
def outputDir (o : ProgramOptions) : String := o.m_outputDir
def configFile (o : ProgramOptions) : String := o.m_configFile
def forceParallel (o : ProgramOptions) : Bool := o.m_forceParallel
def hostNames (o : ProgramOptions) : Bool := o.m_hostNames
def warmupMPI (o : ProgramOptions) : Bool := o.m_warmupMPI
def logLevel (o : ProgramOptions) : String := o.m_logLevel
def logFile (o : ProgramOptions) : String := o.m_logFile
def h5root (o : ProgramOptions) : String := o.m_h5Path
def h5matrixPath (o : ProgramOptions) : String := o.m_h5MatrixDataPath
def h5obsPath (o : ProgramOptions) : String := o.m_h5VarsDataPath
def h5varPath (o : ProgramOptions) : String := o.m_h5VarsDataPath

end ProgramOptions

/-! ## Process group, data, algorithms -/

/-- The part of `mxx::comm` the harness uses: rank and size of the group. -/
structure Comm where
  rank : Nat
  size : Nat
  deriving DecidableEq, Repr

/-- The leader predicate `comm.is_first()`. -/
def Comm.is_first (comm : Comm) : Bool := comm.rank == 0

/-- Numeric precision of the ingested matrix (`DataReader<double>`, `DataReader<float>`). -/
inductive DataType
  | double
  | float
  deriving DecidableEq, Repr

/-- The object `RawData<DataType, Var>` built by the dispatcher: precision, element
type and the two counts as converted to the element type. -/
structure RawData where
  dataType : DataType
  var : Var
  numVars : Nat
  numObs : Nat
  deriving DecidableEq, Repr

/-- The learning algorithm objects `getAlgorithm<Var, UintSet<Var, Size>>` can build;
`setSize` is the `Size` argument of the set type. -/
inductive ModuleNetworkLearning
  | LemonTree (var : Var) (setSize : Nat) (comm : Comm) (data : RawData)
  | Genomica (var : Var) (setSize : Nat) (comm : Comm) (data : RawData)
  deriving DecidableEq, Repr

/-- The exception classes the harness throws or catches.  `runtime_error` stands
for `std::runtime_error` and the classes derived from it (the JSON parser and
file system errors of boost); `po_error` is `boost::program_options::error`,
which derives from `std::logic_error`; `null_dereference` stands for the
undefined behaviour of calling through an empty `unique_ptr`. -/
inductive Exception
  | runtime_error (what : String)
  | po_error (what : String)
  | null_dereference
  deriving DecidableEq, Repr

/-- The kinds of reader `main` constructs. -/
inductive ReaderKind
  | HDF5ObservationReader
  | ColumnObservationReader
  | RowObservationReader
  deriving DecidableEq, Repr

/-- Externally visible actions of one process, `T` being the type of parsed
configuration trees (`pt::ptree`). -/
inductive Event (T : Type)
  | barrier
  | bcast (root : Nat) (value : String)
  | all2all (count : Nat) (sendLen recvLen : Nat)
  | all2allv (sendLen : Nat) (sendSizes sendDispls : List Nat)
      (recvLen : Nat) (recvSizes recvDispls : List Nat)
  | send (dest tag : Nat)
  | recv (src tag : Nat)
  | cout (text : String)
  | cerr (text : String)
  | reader (kind : ReaderKind) (dataType : DataType) (file : String) (n m : Nat)
      (args : List String)
  | RawData (data : RawData)
  | learnNetwork (var : Var) (setSize : Nat)
  | construct (algo : ModuleNetworkLearning)
  | read_json (buffer : String)
  | create_directories (dir : String)
  | copy_file (source target : String)
  | algoLearnNetwork (algo : ModuleNetworkLearning) (isParallel : Bool) (configs : T)
      (outputDir : String)

/-- Behaviour of the external collaborators, fixed for one run. -/
structure World (T : Type) where
  /-- The content `std::ifstream` delivers for a path; `none` when the file cannot be opened. -/
  ifstream : String → Option String
  /-- The parser `pt::read_json` on the text of a buffer; the error is the message of
  the `json_parser_error` it throws. -/
  read_json : String → Except String T
  /-- The test `fs::exists`. -/
  pathExists : String → Bool
  /-- The text `ss << m_desc` produces: the description of the options. -/
  usage : String
  /-- The test `fs::is_directory`. -/
  is_directory : String → Bool
  /-- The call `fs::create_directories`: its boolean result, or the message of the
  `filesystem_error` it throws. -/
  create_directories : String → Except String Bool
  /-- The call `fs::copy_file` with `overwrite_existing`: success, or the message of the
  `filesystem_error` it throws. -/
  copy_file : String → String → Except String Unit
  /-- The outcome of `algo->learnNetwork(parallel, configs, outputDir)`. -/
  algoLearnNetwork : ModuleNetworkLearning → Bool → T → String → Except Exception Unit
  /-- The outcome of constructing a reader for the data file. -/
  reader : ReaderKind → String → Except Exception Unit
  /-- The name `boost::asio::ip::host_name()` returns on the process of a given rank. -/
  host_name : Nat → String

/-! ## Runs -/

/-- A run of a piece of code on one process: the events issued, in order, and
either the value returned or the exception thrown. -/
structure Run (T α : Type) where
  trace : List (Event T)
  result : Except Exception α

namespace Run

variable {T α β : Type}

/-- Return without issuing anything. -/
def ret (a : α) : Run T α := ⟨[], .ok a⟩

/-- Sequencing: the second part runs only when the first returned. -/
def andThen (x : Run T α) (f : α → Run T β) : Run T β :=
  match x.result with
  | .ok a => ⟨x.trace ++ (f a).trace, (f a).result⟩
  | .error e => ⟨x.trace, .error e⟩

/-- Issue one event. -/
def emit (e : Event T) : Run T Unit := ⟨[e], .ok ()⟩

/-- Throw an exception. -/
def raise (e : Exception) : Run T α := ⟨[], .error e⟩

/-- Lift the outcome of an external call that throws a `std::runtime_error`. -/
def ofExcept (r : Except String α) : Run T α :=
  match r with
  | .ok a => ⟨[], .ok a⟩
  | .error what => ⟨[], .error (.runtime_error what)⟩

end Run

instance instMonadRun {T : Type} : Monad (Run T) where
  pure := Run.ret
  bind := Run.andThen

open Run in
/-- The function `getAlgorithm<Var, Set>` of `learn_network.cpp`, with `Set =
UintSet<Var, Size>`.  The result is the `unique_ptr` returned: `none` is the
empty pointer. -/
def getAlgorithm {T : Type} (var : Var) (setSize : Nat) (algoName : String) (comm : Comm)
    (data : RawData) : Run T (Option ModuleNetworkLearning) :=
  let ss := ""
  if algoName = "lemontree" then do
    emit (.construct (.LemonTree var setSize comm data))
    return some (.LemonTree var setSize comm data)
  else
    let ss := ss ++ "lemontree"
    if algoName = "genomica" then do
      emit (.construct (.Genomica var setSize comm data))
      return some (.Genomica var setSize comm data)
    else
      let ss := ss ++ ",genomica"
      raise (.runtime_error
        ("Requested algorithm not found. Supported algorithms are: \x7b" ++ ss ++ "\x7d"))

/-- The collective `mxx::bcast(value, root, comm)`: `value r` is the argument the
process of rank `r` passes in; every process holds the root's argument afterwards. -/
def mxx.bcast {α : Type} (value : Nat → α) (root : Nat) : α := value root

/-- Lines 97-103 of `readConfigs`: the local variables `(configStr, buffer)` of a
process when it reaches the broadcast.  Only the leader opens the file; a file
that cannot be opened inserts nothing into the buffer. -/
def readConfigs.local {T : Type} (w : World T) (configFile : String) (comm : Comm) :
    String × String :=
  let configStr := ""
  let buffer := ""
  if comm.is_first then
    let buffer := buffer ++ (w.ifstream configFile).getD ""
    let configStr := buffer
    (configStr, buffer)
  else
    (configStr, buffer)

open Run in
/-- The function `readConfigs` of `learn_network.cpp` on the process `comm`. -/
def readConfigs {T : Type} (w : World T) (configFile : String) (comm : Comm) : Run T T := do
  let buffer := (readConfigs.local w configFile comm).2
  let configStr :=
    mxx.bcast (fun r => (readConfigs.local w configFile { comm with rank := r }).1) 0
  emit (.bcast 0 configStr)
  let buffer := if !comm.is_first then buffer ++ configStr else buffer
  emit (.read_json buffer)
  ofExcept (w.read_json buffer)

open Run in
/-- Lines 134-142 of `learnNetwork<Var, Size, Data>`: the output staging block,
which only the leader executes. -/
def learnNetwork.stage {T : Type} (w : World T) (options : ProgramOptions) (comm : Comm) :
    Run T Unit :=
  if comm.is_first then do
    (if !w.is_directory options.outputDir then do
      emit (.create_directories options.outputDir)
      let created ← ofExcept (w.create_directories options.outputDir)
      if !created then
        raise (.po_error "Output directory doesn\x27t exist and could not be created")
      else
        pure ()
    else
      pure ())
    emit (.copy_file options.configFile (options.outputDir ++ "/configs.json"))
    ofExcept (w.copy_file options.configFile (options.outputDir ++ "/configs.json"))
  else
    pure ()

open Run in
/-- The call `algo->learnNetwork(isParallel, configs, outputDir)` through the
`unique_ptr` returned by `getAlgorithm`. -/
def learnNetwork.call {T : Type} (w : World T) (algo : Option ModuleNetworkLearning)
    (isParallel : Bool) (configs : T) (outputDir : String) : Run T Unit :=
  match algo with
  | none => raise .null_dereference
  | some a => do
    emit (.algoLearnNetwork a isParallel configs outputDir)
    match w.algoLearnNetwork a isParallel configs outputDir with
    | .ok _ => pure ()
    | .error e => raise e

open Run in
/-- The overload `learnNetwork<Var, Size, Data>` of `learn_network.cpp`: the work
of one tier.  The first event marks the entry into the specialisation. -/
def learnNetwork {T : Type} (w : World T) (var : Var) (setSize : Nat)
    (options : ProgramOptions) (comm : Comm) (data : RawData) : Run T Unit := do
  emit (.learnNetwork var setSize)
  let algo ← getAlgorithm var setSize options.algoName comm data
  let configs ← readConfigs w options.configFile comm
  learnNetwork.stage w options comm
  emit .barrier
  learnNetwork.call w algo (decide (comm.size > 1) || options.forceParallel) configs
    options.outputDir
  emit .barrier

open Run in
/-- The two statements every branch of the dispatcher consists of: build
`RawData<DataType, Var>` from the counts converted to `Var`, then call
`learnNetwork<Var, integral_constant<int, Size>>`. -/
def Reader.branch {T : Type} (w : World T) (dataType : DataType) (var : Var) (setSize : Nat)
    (options : ProgramOptions) (comm : Comm) (n m : Nat) : Run T Unit := do
  let data : RawData := ⟨dataType, var, static_cast var n, static_cast var m⟩
  emit (.RawData data)
  learnNetwork w var setSize options comm data

open Run in
/-- The overload `learnNetwork<Reader, DataType>` of `learn_network.cpp`: the
capacity dispatcher. -/
def Reader.learnNetwork {T : Type} (U : UintSetDecl) (w : World T) (dataType : DataType)
    (options : ProgramOptions) (comm : Comm) : Run T Unit :=
  let n := options.numVars
  let m := options.numObs
  let s := max n m
  if sub32 s 1 ≤ U.capacity .uint8_t (U.maxSize .uint8_t >>> 2) then
    Reader.branch w dataType .uint8_t (U.maxSize .uint8_t >>> 2) options comm n m
  else if sub32 s 1 ≤ U.capacity .uint8_t (U.maxSize .uint8_t >>> 1) then
    Reader.branch w dataType .uint8_t (U.maxSize .uint8_t >>> 1) options comm n m
  else if sub32 s 1 ≤ U.capacity .uint8_t (U.defaultSize .uint8_t) then
    Reader.branch w dataType .uint8_t (U.maxSize .uint8_t) options comm n m
  else if sub32 s 1 ≤ U.capacity .uint16_t (U.maxSize .uint16_t >>> 7) then
    Reader.branch w dataType .uint16_t (U.maxSize .uint16_t >>> 7) options comm n m
  else if sub32 s 1 ≤ U.capacity .uint16_t (U.maxSize .uint16_t >>> 6) then
    Reader.branch w dataType .uint16_t (U.maxSize .uint16_t >>> 6) options comm n m
  else if sub32 s 1 ≤ U.capacity .uint16_t (U.maxSize .uint16_t >>> 5) then
    Reader.branch w dataType .uint16_t (U.maxSize .uint16_t >>> 5) options comm n m
  else if sub32 s 1 ≤ U.capacity .uint16_t (U.maxSize .uint16_t >>> 4) then
    Reader.branch w dataType .uint16_t (U.maxSize .uint16_t >>> 4) options comm n m
  else if sub32 s 1 ≤ U.capacity .uint16_t (U.maxSize .uint16_t >>> 3) then
    Reader.branch w dataType .uint16_t (U.maxSize .uint16_t >>> 3) options comm n m
  else if sub32 s 1 ≤ U.capacity .uint16_t (U.maxSize .uint16_t >>> 2) then
    Reader.branch w dataType .uint16_t (U.maxSize .uint16_t >>> 2) options comm n m
  else if sub32 s 1 ≤ U.capacity .uint16_t (U.maxSize .uint16_t >>> 1) then
    Reader.branch w dataType .uint16_t (U.maxSize .uint16_t >>> 1) options comm n m
  else if sub32 s 1 ≤ U.capacity .uint16_t (U.maxSize .uint16_t) then
    Reader.branch w dataType .uint16_t (U.maxSize .uint16_t) options comm n m
  else
    raise (.runtime_error "The given number of variables and observations is not supported.")

/-- The two functions `learn_network` of `learn_network.cpp`, for a
`DataReader<double>` and a `DataReader<float>`. -/
def learn_network {T : Type} (U : UintSetDecl) (w : World T) (dataType : DataType)
    (options : ProgramOptions) (comm : Comm) : Run T Unit :=
  Reader.learnNetwork U w dataType options comm

/-! ## Option parsing and `main` (`ProgramOptions.cpp`, `parsimone.cpp`) -/

/-- What `po::store(po::parse_command_line(argc, argv, m_desc), vm)` followed by
`po::notify(vm)` delivers: the data members as assigned from the command line and the
defaults, and whether `help`, `nvars` and `nobs` were given. -/
structure VariablesMap where
  members : ProgramOptions
  help : Bool
  nvars : Bool
  nobs : Bool

/-- The command line: `argc`, and the outcome of the boost parser, which is either the
message of the `po::error` it throws or the variables map. -/
structure CommandLine where
  argc : Nat
  store : Except String VariablesMap

open Run in
/-- The function `ProgramOptions::parse`. -/
def ProgramOptions.parse {T : Type} (w : World T) (cl : CommandLine) : Run T ProgramOptions :=
  match cl.store with
  | .error what => raise (.po_error what)
  | .ok vm =>
    let o := vm.members
    if cl.argc = 1 ∨ vm.help = true then
      raise (.po_error w.usage)
    else if !w.pathExists o.m_dataFile then
      raise (.po_error "Couldn\x27t find the data file")
    else if vm.nvars = false ∨ vm.nobs = false then
      raise (.po_error "Dimensions of the data file should be provided using -n and -m")
    else if o.m_configFile = "" then
      let o := { o with m_configFile := o.m_algoName ++ "_configs.json" }
      (emit (.cerr
        ("Using the default configuration file for the algorithm: " ++ o.m_configFile))).andThen
      fun _ =>
        if !w.pathExists o.m_configFile then
          raise (.po_error "Couldn\x27t find the algorithm configuration file")
        else
          ret o
    else if !w.pathExists o.m_configFile then
      raise (.po_error "Couldn\x27t find the algorithm configuration file")
    else
      ret o

/-- The function `endsWith` of `learn_network.cpp`: `str` is at least as long as
`suffix` and its last `suffix.size()` characters compare equal to `suffix`. -/
def endsWith (str suffix : String) : Bool :=
  decide (str.length ≥ suffix.length) &&
    (str.data.drop (str.length - suffix.length) == suffix.data)

open Run in
/-- The function `warmupMPI` of `parsimone.cpp`.  The two buffers have `comm.size()`
elements; the events record the buffer lengths with the arguments of the calls. -/
def warmupMPI {T : Type} (comm : Comm) : Run T Unit := do
  let send : List Nat := List.replicate comm.size 0
  let recv : List Nat := List.replicate comm.size 0
  emit (.all2all 1 send.length recv.length)
  let sendSizes := List.replicate comm.size 1
  let sendDispls := List.range comm.size
  let recvSizes := List.replicate comm.size 1
  let recvDispls := sendDispls
  emit (.all2allv send.length sendSizes sendDispls recv.length recvSizes recvDispls)

/-- A handler of a `try` block: `handler e` is `none` when no `catch` clause matches
the class of `e`, which then propagates. -/
def Run.tryCatch {T α : Type} (x : Run T α) (handler : Exception → Option (Run T α)) :
    Run T α :=
  match x.result with
  | .ok a => ⟨x.trace, .ok a⟩
  | .error e =>
    match handler e with
    | some h => ⟨x.trace ++ h.trace, h.result⟩
    | none => ⟨x.trace, .error e⟩

/-- A loop `for (int i = lo; i < hi; ++i) body(i)`, given as the list of the values of `i`. -/
def Run.forEach {T : Type} (body : Nat → Run T Unit) : List Nat → Run T Unit
  | [] => Run.ret ()
  | i :: rest => (body i).andThen fun _ => Run.forEach body rest

open Run in
/-- Lines 54-63 of `main`: parse the options; on a `po::error` the leader prints the
message and `main` returns 1.  The result is the options, or the status returned. -/
def main.parseOptions {T : Type} (w : World T) (cl : CommandLine) (comm : Comm) :
    Run T (Except Int ProgramOptions) :=
  tryCatch ((ProgramOptions.parse w cl).andThen fun o => ret (.ok o))
    fun e => match e with
      | .po_error what => some do
          (if comm.is_first then emit (.cerr what) else pure ())
          return .error 1
      | _ => none

open Run in
/-- Lines 65-83 of `main`: the host name diagnostic. -/
def main.hostNames {T : Type} (w : World T) (options : ProgramOptions) (comm : Comm) :
    Run T Unit :=
  if options.hostNames then do
    (if comm.is_first then do
      emit (.cout "*** Host names ***")
      emit (.cout (toString comm.rank ++ ": " ++ w.host_name comm.rank))
    else pure ())
    forEach (fun i => do
      (if comm.rank = i then emit (.send 0 i) else pure ())
      (if comm.is_first then do
        emit (.recv i i)
        emit (.cout (toString i ++ ": " ++ w.host_name i))
      else pure ())) (List.range' 1 (comm.size - 1))
    (if comm.is_first then emit (.cout "******") else pure ())
  else
    pure ()

open Run in
/-- Lines 85-93 of `main`: the warm-up of the all-to-all functions. -/
def main.warmup {T : Type} (options : ProgramOptions) (comm : Comm) : Run T Unit :=
  if decide (comm.size > 1) && options.warmupMPI then do
    emit .barrier
    warmupMPI comm
    emit .barrier
  else
    pure ()

open Run in
/-- Lines 96-143 of `main`: the body of the `try` block.  The test against
`std::sqrt(std::numeric_limits<uint32_t>::max())`, a value strictly between 65535 and
65536, is the test `65536 ≤ m` on the integer `m`. -/
def main.tryBody {T : Type} (U : UintSetDecl) (w : World T) (options : ProgramOptions)
    (comm : Comm) : Run T Unit := do
  let n := options.numVars
  let m := options.numObs
  (if 65536 ≤ m then do
    emit (.cerr ("WARNING: The given number of observations is possibly too big " ++
      "to be handled by 32-bit unsigned integer"))
    emit (.cerr "         This may result in silent errors because of overflow")
  else pure ())
  let filename := options.dataFile
  if endsWith filename "hdf5" || endsWith filename ".h5" ||
      endsWith filename ".loom" || endsWith filename ".h5ad" then do
    emit (.reader .HDF5ObservationReader .float options.dataFile n m
      [options.h5root, options.h5matrixPath, options.h5obsPath, options.h5varPath])
    (match w.reader .HDF5ObservationReader options.dataFile with
      | .ok _ => pure ()
      | .error e => raise e)
    emit .barrier
    learn_network U w .float options comm
  else do
    (if options.colObs then do
      emit (.reader .ColumnObservationReader .double options.dataFile n m
        [String.singleton options.separator])
      (match w.reader .ColumnObservationReader options.dataFile with
        | .ok _ => pure ()
        | .error e => raise e)
    else do
      emit (.reader .RowObservationReader .double options.dataFile n m
        [String.singleton options.separator])
      (match w.reader .RowObservationReader options.dataFile with
        | .ok _ => pure ()
        | .error e => raise e))
    emit .barrier
    learn_network U w .double options comm

open Run in
/-- Lines 95-152 of `main`: the `try` block with its handler for `std::runtime_error`,
and the final `return 0`. -/
def main.execute {T : Type} (U : UintSetDecl) (w : World T) (options : ProgramOptions)
    (comm : Comm) : Run T Int :=
  tryCatch ((main.tryBody U w options comm).andThen fun _ => ret 0)
    fun e => match e with
      | .runtime_error what => some do
          emit (.cerr "Encountered runtime error during execution:")
          emit (.cerr what)
          emit (.cerr "Aborting.")
          return 1
      | _ => none

open Run in
/-- The function `main` of `parsimone.cpp` on the process `comm`.  The result is the
exit status returned, or the exception that leaves `main` uncaught. -/
def main {T : Type} (U : UintSetDecl) (w : World T) (cl : CommandLine) (comm : Comm) :
    Run T Int := do
  emit .barrier
  let parsed ← main.parseOptions w cl comm
  match parsed with
  | .error status => return status
  | .ok options =>
    main.hostNames w options comm
    main.warmup options comm
    main.execute U w options comm

/-! ## The tiers of the dispatcher -/

/-- The eleven tiers, each an element type with a set size, in the order the
dispatcher tests them. -/
def tiers (U : UintSetDecl) : Fin 11 → Var × Nat :=
  ![(.uint8_t, U.maxSize .uint8_t >>> 2), (.uint8_t, U.maxSize .uint8_t >>> 1),
    (.uint8_t, U.maxSize .uint8_t),
    (.uint16_t, U.maxSize .uint16_t >>> 7), (.uint16_t, U.maxSize .uint16_t >>> 6),
    (.uint16_t, U.maxSize .uint16_t >>> 5), (.uint16_t, U.maxSize .uint16_t >>> 4),
    (.uint16_t, U.maxSize .uint16_t >>> 3), (.uint16_t, U.maxSize .uint16_t >>> 2),
    (.uint16_t, U.maxSize .uint16_t >>> 1), (.uint16_t, U.maxSize .uint16_t)]

/-- The capacity `UintSet<Var, Size>::capacity()` of a tier. -/
def tierCapacity (U : UintSetDecl) (i : Fin 11) : Nat := U.capacity (tiers U i).1 (tiers U i).2

/-- The specialisations `learnNetwork<Var, Size>` entered during a run, in order. -/
def entered {T : Type} (trace : List (Event T)) : List (Var × Nat) :=
  trace.filterMap fun e => match e with
    | .learnNetwork v s => some (v, s)
    | _ => none

/-- An event other than the entry into a specialisation. -/
def Event.notEntry {T : Type} (e : Event T) : Prop := ∀ v s, e ≠ .learnNetwork v s

/-! ## Classes of events -/

/-- Staging events: the directory creation and the configuration copy. -/
def Event.isStaging {T : Type} : Event T → Bool
  | .create_directories _ => true
  | .copy_file _ _ => true
  | _ => false

/-- Collective calls: every process of the group has to issue them. -/
def Event.isCollective {T : Type} : Event T → Bool
  | .barrier => true
  | .bcast _ _ => true
  | .all2all _ _ _ => true
  | .all2allv _ _ _ _ _ _ => true
  | _ => false

/-- The two all-to-all exchanges. -/
def Event.isAll2all {T : Type} : Event T → Bool
  | .all2all _ _ _ => true
  | .all2allv _ _ _ _ _ _ => true
  | _ => false

/-- The invocation of the algorithm. -/
def Event.isAlgo {T : Type} : Event T → Bool
  | .algoLearnNetwork _ _ _ _ => true
  | _ => false

/-- Data ingestion and dispatch: the construction of a reader, of `RawData`, and the
entry into a specialisation. -/
def Event.isIngestion {T : Type} : Event T → Bool
  | .reader _ _ _ _ _ _ => true
  | .RawData _ => true
  | .learnNetwork _ _ => true
  | _ => false

/-- The collective call issued last before the first staging event of a trace; `none`
when the trace has no staging event or no collective call precedes it. -/
def collectiveBeforeStaging {T : Type} (trace : List (Event T)) : Option (Event T) :=
  if trace.any Event.isStaging then
    ((trace.takeWhile fun e => !e.isStaging).filter Event.isCollective).getLast?
  else
    none

/-! ## Reader selection and the option table -/

/-- The first reader constructed in a trace, as the event of its construction. -/
def firstReader {T : Type} : List (Event T) → Option (Event T)
  | [] => none
  | e :: rest =>
    match e with
    | .reader kind dataType file n m args => some (.reader kind dataType file n m args)
    | _ => firstReader rest

/-- The values given on the command line for the options the constructor of
`ProgramOptions` registers (lines 53-86 of `ProgramOptions.cpp`): `none` for an option
with a value that is absent, and for a `bool_switch` whether it is present. -/
structure GivenOptions where
  help : Bool
  nvars : Option Nat
  nobs : Option Nat
  file : Option String
  readpar : Bool
  colobs : Bool
  separator : Option Char
  varnames : Bool
  indices : Bool
  algorithm : Option String
  outdir : Option String
  h5root : Option String
  h5matrix : Option String
  h5obs : Option String
  h5var : Option String
  config : Option String
  warmup : Bool
  parallel : Bool
  hostnames : Bool
  loglevel : Option String
  logfile : Option String

/-- The effect of `po::store` and `po::notify` with the option table of the
constructor: every option writes the value given, or else its `default_value`, to the
data member it is bound to; an option without a default leaves its member as it is
when absent.  `LOGGING` says whether the two logging options are compiled in. -/
def po.notify (LOGGING : Bool) (self : ProgramOptions) (g : GivenOptions) : VariablesMap where
  members :=
    { self with
      m_numVars := g.nvars.getD self.m_numVars
      m_numObs := g.nobs.getD self.m_numObs
      m_dataFile := g.file.getD self.m_dataFile
      m_parallelRead := g.readpar
      m_colObs := g.colobs
      m_separator := g.separator.getD ','
      m_varNames := g.varnames
      m_obsIndices := g.indices
      m_algoName := g.algorithm.getD "lemontree"
      m_outputDir := g.outdir.getD "."
      m_h5Path := g.h5root.getD "/"
      m_h5MatrixDataPath := g.h5matrix.getD "matrix"
      m_h5ObsDataPath := g.h5obs.getD "col_attrs/CellID"
      m_h5VarsDataPath := g.h5var.getD "row_attrs/Gene"
      m_configFile := g.config.getD ""
      m_warmupMPI := g.warmup
      m_forceParallel := g.parallel
      m_hostNames := g.hostnames
      m_logLevel := if LOGGING then g.loglevel.getD "error" else self.m_logLevel
      m_logFile := if LOGGING then g.logfile.getD "" else self.m_logFile }
  help := g.help
  nvars := g.nvars.isSome
  nobs := g.nobs.isSome

/-- The values of all the accessors of `ProgramOptions`, in the order of their
declaration in `ProgramOptions.hpp`. -/
def ProgramOptions.observable (o : ProgramOptions) :
    Nat × Nat × String × Bool × Bool × Bool × Bool × Char × String × Bool × String × String ×
      Bool × Bool × Bool × String × String × String × String × String × String :=
  (o.numVars, o.numObs, o.dataFile, o.parallelRead, o.colObs, o.varNames, o.obsIndices,
    o.separator, o.algoName, o.learnNetwork, o.outputDir, o.configFile, o.forceParallel,
    o.hostNames, o.warmupMPI, o.logLevel, o.logFile, o.h5root, o.h5matrixPath, o.h5obsPath,
    o.h5varPath)

/-- The command line whose options the boost parser accepts with the values `g`, parsed
into a freshly constructed object `fresh`. -/
def CommandLine.ofGiven (LOGGING : Bool) (fresh : ProgramOptions) (argc : Nat)
    (g : GivenOptions) : CommandLine where
  argc := argc
  store := .ok (po.notify LOGGING fresh g)

set_option linter.dupNamespace false in
/-- The constructor `ProgramOptions::ProgramOptions`: every data member is
value-initialised; the defaults of the option table are applied by the parse. -/
def ProgramOptions.ProgramOptions : ProgramOptions where
  m_logLevel := ""
  m_logFile := ""
  m_dataFile := ""
  m_algoName := ""
  m_outputDir := ""
  m_configFile := ""
  m_h5Path := ""
  m_h5MatrixDataPath := ""
  m_h5VarsDataPath := ""
  m_h5ObsDataPath := ""
  m_numVars := 0
  m_numObs := 0
  m_separator := Char.ofNat 0
  m_parallelRead := false
  m_colObs := false
  m_varNames := false
  m_obsIndices := false
  m_learnNetwork := false
  m_forceParallel := false
  m_hostNames := false
  m_warmupMPI := false

/-! ## Sample inputs -/

/-- A world in which the configuration file holds an empty JSON object, the parser
rejects empty text and accepts everything else, the output directory exists and
every external call succeeds. -/
def sampleWorld : World String where
  ifstream := fun _ => some "\x7b\x7d"
  read_json := fun text => if text = "" then .error "expected value" else .ok text
  pathExists := fun _ => true
  usage := "Parallel Construction of Module Networks"
  is_directory := fun _ => true
  create_directories := fun _ => .ok true
  copy_file := fun _ _ => .ok ()
  algoLearnNetwork := fun _ _ _ _ => .ok ()
  reader := fun _ _ => .ok ()
  host_name := fun _ => "node"

/-- Options after a successful parse of `-n 500 -m 20000 -f data.tsv -s "\t"`, the
configuration file defaulting to `lemontree_configs.json`. -/
def sampleOptions : ProgramOptions where
  m_logLevel := ""
  m_logFile := ""
  m_dataFile := "data.tsv"
  m_algoName := "lemontree"
  m_outputDir := "."
  m_configFile := "lemontree_configs.json"
  m_h5Path := "/"
  m_h5MatrixDataPath := "matrix"
  m_h5VarsDataPath := "row_attrs/Gene"
  m_h5ObsDataPath := "col_attrs/CellID"
  m_numVars := 500
  m_numObs := 20000
  m_separator := '\t'
  m_parallelRead := false
  m_colObs := false
  m_varNames := false
  m_obsIndices := false
  m_learnNetwork := false
  m_forceParallel := false
  m_hostNames := false
  m_warmupMPI := false

/-- The command line `-n 500 -m 20000 -f data.tsv -s "\t"` as parsed by boost. -/
def sampleCommandLine : CommandLine where
  argc := 9
  store := .ok ⟨{ sampleOptions with m_configFile := "" }, false, true, true⟩

/-- The sample world, except that the output directory does not exist and
`fs::create_directories` reports that it created nothing. -/
def worldWithoutOutputDir : World String :=
  { sampleWorld with
    is_directory := fun _ => false
    create_directories := fun _ => .ok false }

/-- The sample world, except that the output directory does not exist and
`fs::create_directories` throws a `filesystem_error`. -/
def worldWithFailingCreate : World String :=
  { sampleWorld with
    is_directory := fun _ => false
    create_directories := fun _ => .error "boost::filesystem::create_directories: Permission denied" }

/-- The options given by `-n 500 -m 20000 -f cells.loom --h5obs col_attrs/Barcode`. -/
def sampleGiven : GivenOptions where
  help := false
  nvars := some 500
  nobs := some 20000
  file := some "cells.loom"
  readpar := false
  colobs := false
  separator := none
  varnames := false
  indices := false
  algorithm := none
  outdir := none
  h5root := none
  h5matrix := none
  h5obs := some "col_attrs/Barcode"
  h5var := none
  config := none
  warmup := false
  parallel := false
  hostnames := false
  loglevel := none
  logfile := none

/-! ## Lemmas on runs -/

section Lemmas

variable {T α β : Type}

theorem Run.bind_eq (x : Run T α) (f : α → Run T β) : x >>= f = Run.andThen x f := rfl

theorem Run.pure_eq (a : α) : (pure a : Run T α) = Run.ret a := rfl

theorem Run.trace_andThen (x : Run T α) (f : α → Run T β) :
    (x.andThen f).trace =
      x.trace ++ (match x.result with | .ok a => (f a).trace | .error _ => []) := by
  unfold Run.andThen; split <;> simp_all

theorem Run.emit_andThen (e : Event T) (f : Unit → Run T β) :
    (Run.emit e).andThen f = ⟨e :: (f ()).trace, (f ()).result⟩ := rfl

theorem Run.forall_andThen (P : Event T → Prop) (x : Run T α) (f : α → Run T β)
    (hx : ∀ e ∈ x.trace, P e) (hf : ∀ a, ∀ e ∈ (f a).trace, P e) :
    ∀ e ∈ (x.andThen f).trace, P e := by
  intro e he
  rw [Run.trace_andThen] at he
  rcases List.mem_append.1 he with h | h
  · exact hx e h
  · split at h
    · exact hf _ e h
    · simp at h

theorem learnNetwork_eq (w : World T) (v : Var) (sz : Nat) (o : ProgramOptions) (c : Comm)
    (d : RawData) :
    learnNetwork w v sz o c d =
      (Run.emit (.learnNetwork v sz)).andThen fun _ =>
      (getAlgorithm v sz o.algoName c d).andThen fun algo =>
      (readConfigs w o.configFile c).andThen fun configs =>
      (learnNetwork.stage w o c).andThen fun _ =>
      (Run.emit .barrier).andThen fun _ =>
      (learnNetwork.call w algo (decide (c.size > 1) || o.forceParallel) configs
        o.outputDir).andThen fun _ => Run.emit .barrier := rfl

theorem readConfigs_eq (w : World T) (f : String) (c : Comm) :
    readConfigs w f c =
      ⟨[.bcast 0 ((w.ifstream f).getD ""), .read_json ((w.ifstream f).getD "")],
        match w.read_json ((w.ifstream f).getD "") with
        | .ok t => .ok t
        | .error what => .error (.runtime_error what)⟩ := by
  have h0 : Comm.is_first { c with rank := 0 } = true := rfl
  cases hc : c.is_first <;>
    cases hr : w.read_json ((w.ifstream f).getD "") <;>
    simp [readConfigs, readConfigs.local, mxx.bcast, Run.bind_eq, Run.pure_eq,
      Run.andThen, Run.emit, Run.ret, Run.ofExcept, hc, hr, h0]

theorem getAlgorithm_trace (v : Var) (sz : Nat) (name : String) (c : Comm) (d : RawData) :
    (getAlgorithm v sz name c d : Run T _).trace =
      if name = "lemontree" then [.construct (.LemonTree v sz c d)]
      else if name = "genomica" then [.construct (.Genomica v sz c d)] else [] := by
  unfold getAlgorithm
  split_ifs <;> simp [Run.bind_eq, Run.pure_eq, Run.andThen, Run.emit, Run.ret, Run.raise]

theorem entered_eq_nil (t : List (Event T)) (h : ∀ e ∈ t, e.notEntry) : entered t = [] := by
  induction t with
  | nil => rfl
  | cons a t ih =>
    have ha := h a (by simp)
    have ht := ih (fun e he => h e (by simp [he]))
    cases a <;> simp_all [entered, Event.notEntry]

theorem notEntry_stage (w : World T) (o : ProgramOptions) (c : Comm) :
    ∀ e ∈ (learnNetwork.stage w o c).trace, e.notEntry := by
  unfold learnNetwork.stage
  cases c.is_first <;> cases w.is_directory o.outputDir <;>
    cases w.copy_file o.configFile (o.outputDir ++ "/configs.json") <;>
    rcases w.create_directories o.outputDir with _ | _ | _ <;>
    simp [Run.bind_eq, Run.pure_eq, Run.andThen, Run.emit, Run.ret, Run.raise, Run.ofExcept,
      Event.notEntry]

theorem notEntry_call (w : World T) (algo : Option ModuleNetworkLearning) (b : Bool) (configs : T)
    (dir : String) : ∀ e ∈ (learnNetwork.call w algo b configs dir).trace, e.notEntry := by
  unfold learnNetwork.call
  cases algo with
  | none => simp [Run.raise]
  | some a =>
    simp only []
    cases w.algoLearnNetwork a b configs dir <;>
    simp [Run.bind_eq, Run.pure_eq, Run.andThen, Run.emit, Run.ret, Run.raise, Event.notEntry]

theorem entered_learnNetwork (w : World T) (v : Var) (sz : Nat) (o : ProgramOptions) (c : Comm)
    (d : RawData) : entered (learnNetwork w v sz o c d).trace = [(v, sz)] := by
  rw [learnNetwork_eq, Run.emit_andThen]
  have key : ∀ e ∈ ((getAlgorithm v sz o.algoName c d).andThen fun algo =>
      (readConfigs w o.configFile c).andThen fun configs =>
      (learnNetwork.stage w o c).andThen fun _ =>
      (Run.emit .barrier).andThen fun _ =>
      (learnNetwork.call w algo (decide (c.size > 1) || o.forceParallel) configs
        o.outputDir).andThen fun _ => Run.emit .barrier).trace, e.notEntry := by
    apply Run.forall_andThen
    · rw [getAlgorithm_trace]; split_ifs <;> simp [Event.notEntry]
    intro algo
    apply Run.forall_andThen
    · rw [readConfigs_eq]; simp [Event.notEntry]
    intro configs
    apply Run.forall_andThen _ _ _ (notEntry_stage w o c)
    intro _
    apply Run.forall_andThen
    · simp [Run.emit, Event.notEntry]
    intro _
    apply Run.forall_andThen _ _ _ (notEntry_call _ _ _ _ _)
    intro _
    simp [Run.emit, Event.notEntry]
  have := entered_eq_nil _ key
  simp only [entered, List.filterMap_cons] at this ⊢
  simp [this]

theorem entered_branch (w : World T) (dt : DataType) (v : Var) (sz : Nat) (o : ProgramOptions)
    (c : Comm) (n m : Nat) : entered (Reader.branch w dt v sz o c n m).trace = [(v, sz)] := by
  have h : Reader.branch w dt v sz o c n m =
      (Run.emit (.RawData ⟨dt, v, static_cast v n, static_cast v m⟩)).andThen fun _ =>
        learnNetwork w v sz o c ⟨dt, v, static_cast v n, static_cast v m⟩ := rfl
  rw [h, Run.emit_andThen]
  have := entered_learnNetwork w v sz o c ⟨dt, v, static_cast v n, static_cast v m⟩
  simp only [entered, List.filterMap_cons] at this ⊢
  simp [this]

theorem ite_chain_eq_find {R : Type} (p : Fin 11 → Prop) [DecidablePred p] (b : Fin 11 → R)
    (e : R) :
    (if p 0 then b 0 else if p 1 then b 1 else if p 2 then b 2 else if p 3 then b 3
      else if p 4 then b 4 else if p 5 then b 5 else if p 6 then b 6 else if p 7 then b 7
      else if p 8 then b 8 else if p 9 then b 9 else if p 10 then b 10 else e) =
      match Fin.find p with
      | some i => b i
      | none => e := by
  cases h : Fin.find p with
  | none =>
    rw [Fin.find_eq_none_iff] at h
    simp [h]
  | some i =>
    rw [Fin.find_eq_some_iff] at h
    obtain ⟨hi, hmin⟩ := h
    have hlt : ∀ j, j < i → ¬ p j := fun j hj hp => absurd (hmin j hp) (not_le.2 hj)
    have h0 := hlt 0; have h1 := hlt 1; have h2 := hlt 2; have h3 := hlt 3; have h4 := hlt 4
    have h5 := hlt 5; have h6 := hlt 6; have h7 := hlt 7; have h8 := hlt 8; have h9 := hlt 9
    clear hlt hmin
    fin_cases i <;> simp_all

theorem tiers_val (U : UintSetDecl) :
    tiers U 0 = (.uint8_t, U.maxSize .uint8_t >>> 2) ∧
    tiers U 1 = (.uint8_t, U.maxSize .uint8_t >>> 1) ∧
    tiers U 2 = (.uint8_t, U.maxSize .uint8_t) ∧
    tiers U 3 = (.uint16_t, U.maxSize .uint16_t >>> 7) ∧
    tiers U 4 = (.uint16_t, U.maxSize .uint16_t >>> 6) ∧
    tiers U 5 = (.uint16_t, U.maxSize .uint16_t >>> 5) ∧
    tiers U 6 = (.uint16_t, U.maxSize .uint16_t >>> 4) ∧
    tiers U 7 = (.uint16_t, U.maxSize .uint16_t >>> 3) ∧
    tiers U 8 = (.uint16_t, U.maxSize .uint16_t >>> 2) ∧
    tiers U 9 = (.uint16_t, U.maxSize .uint16_t >>> 1) ∧
    tiers U 10 = (.uint16_t, U.maxSize .uint16_t) :=
  ⟨rfl, rfl, rfl, rfl, rfl, rfl, rfl, rfl, rfl, rfl, rfl⟩

theorem Reader_learnNetwork_eq_find (U : UintSetDecl)
    (hdef : U.defaultSize .uint8_t = U.maxSize .uint8_t)
    (w : World T) (dt : DataType) (o : ProgramOptions) (c : Comm) :
    Reader.learnNetwork U w dt o c =
      match Fin.find (fun i => sub32 (max o.numVars o.numObs) 1 ≤ tierCapacity U i) with
      | some i => Reader.branch w dt (tiers U i).1 (tiers U i).2 o c o.numVars o.numObs
      | none => Run.raise
          (.runtime_error "The given number of variables and observations is not supported.") := by
  unfold Reader.learnNetwork
  simp only [hdef]
  generalize sub32 (max o.numVars o.numObs) 1 = s1
  have key := ite_chain_eq_find (fun i => s1 ≤ tierCapacity U i)
    (fun i => Reader.branch w dt (tiers U i).1 (tiers U i).2 o c o.numVars o.numObs)
    (Run.raise
      (.runtime_error "The given number of variables and observations is not supported."))
  obtain ⟨t0, t1, t2, t3, t4, t5, t6, t7, t8, t9, t10⟩ := tiers_val U
  rw [← key]
  simp only [tierCapacity, t0, t1, t2, t3, t4, t5, t6, t7, t8, t9, t10]

theorem stage_not_first (w : World T) (o : ProgramOptions) (c : Comm)
    (h : c.is_first = false) : learnNetwork.stage w o c = ⟨[], .ok ()⟩ := by
  simp [learnNetwork.stage, h, Run.pure_eq, Run.ret]

theorem stage_trace_isStaging (w : World T) (o : ProgramOptions) (c : Comm) :
    ∀ e ∈ (learnNetwork.stage w o c).trace, e.isStaging = true := by
  unfold learnNetwork.stage
  cases c.is_first <;> cases w.is_directory o.outputDir <;>
    cases w.copy_file o.configFile (o.outputDir ++ "/configs.json") <;>
    rcases w.create_directories o.outputDir with _ | _ | _ <;>
    simp [Run.bind_eq, Run.pure_eq, Run.andThen, Run.emit, Run.ret, Run.raise, Run.ofExcept,
      Event.isStaging]

theorem call_trace (w : World T) (algo : Option ModuleNetworkLearning) (b : Bool) (configs : T)
    (dir : String) :
    ∀ e ∈ (learnNetwork.call w algo b configs dir).trace,
      ∃ a, algo = some a ∧ e = .algoLearnNetwork a b configs dir := by
  unfold learnNetwork.call
  cases algo with
  | none => simp [Run.raise]
  | some a =>
    simp only []
    cases w.algoLearnNetwork a b configs dir <;>
    simp [Run.bind_eq, Run.pure_eq, Run.andThen, Run.emit, Run.ret, Run.raise]

theorem getAlgorithm_trace_construct (v : Var) (sz : Nat) (name : String) (c : Comm)
    (d : RawData) :
    ∀ e ∈ (getAlgorithm v sz name c d : Run T _).trace, ∃ a, e = .construct a := by
  rw [getAlgorithm_trace]
  split_ifs <;> simp

/-- The run of `learnNetwork<Var, Size, Data>`, block by block. -/
theorem learnNetwork_run (w : World T) (v : Var) (sz : Nat) (o : ProgramOptions) (c : Comm)
    (d : RawData) :
    learnNetwork w v sz o c d =
      match (getAlgorithm v sz o.algoName c d : Run T _).result with
      | .error e => ⟨.learnNetwork v sz :: (getAlgorithm v sz o.algoName c d : Run T _).trace,
          .error e⟩
      | .ok algo =>
        match w.read_json ((w.ifstream o.configFile).getD "") with
        | .error what =>
          ⟨.learnNetwork v sz :: (getAlgorithm v sz o.algoName c d : Run T _).trace ++
              [.bcast 0 ((w.ifstream o.configFile).getD ""),
                .read_json ((w.ifstream o.configFile).getD "")],
            .error (.runtime_error what)⟩
        | .ok configs =>
          match (learnNetwork.stage w o c).result with
          | .error e =>
            ⟨.learnNetwork v sz :: (getAlgorithm v sz o.algoName c d : Run T _).trace ++
                [.bcast 0 ((w.ifstream o.configFile).getD ""),
                  .read_json ((w.ifstream o.configFile).getD "")] ++
                (learnNetwork.stage w o c).trace, .error e⟩
          | .ok _ =>
            match (learnNetwork.call w algo (decide (c.size > 1) || o.forceParallel) configs
                o.outputDir).result with
            | .error e =>
              ⟨.learnNetwork v sz :: (getAlgorithm v sz o.algoName c d : Run T _).trace ++
                  [.bcast 0 ((w.ifstream o.configFile).getD ""),
                    .read_json ((w.ifstream o.configFile).getD "")] ++
                  (learnNetwork.stage w o c).trace ++
                  (.barrier :: (learnNetwork.call w algo
                    (decide (c.size > 1) || o.forceParallel) configs o.outputDir).trace),
                .error e⟩
            | .ok _ =>
              ⟨.learnNetwork v sz :: (getAlgorithm v sz o.algoName c d : Run T _).trace ++
                  [.bcast 0 ((w.ifstream o.configFile).getD ""),
                    .read_json ((w.ifstream o.configFile).getD "")] ++
                  (learnNetwork.stage w o c).trace ++
                  (.barrier :: (learnNetwork.call w algo
                    (decide (c.size > 1) || o.forceParallel) configs o.outputDir).trace ++
                    [.barrier]),
                .ok ()⟩ := by
  rw [learnNetwork_eq, readConfigs_eq]
  generalize (getAlgorithm v sz o.algoName c d : Run T _) = G
  generalize learnNetwork.stage w o c = S
  rcases G with ⟨gt, gr⟩
  rcases S with ⟨st, sr⟩
  cases gr with
  | error e => simp [Run.andThen, Run.emit]
  | ok algo =>
    cases hr : w.read_json ((w.ifstream o.configFile).getD "") with
    | error what => simp [Run.andThen, Run.emit]
    | ok configs =>
      cases sr with
      | error e => simp [Run.andThen, Run.emit]
      | ok u =>
        simp only [Run.andThen, Run.emit]
        cases (learnNetwork.call w algo (decide (c.size > 1) || o.forceParallel) configs
          o.outputDir).result <;> simp

theorem collectiveBeforeStaging_of_parts (pre staging post : List (Event T)) (x b : Event T)
    (hpre : ∀ e ∈ pre, e.isStaging = false ∧ (e.isCollective = true → e = x))
    (hst : ∀ e ∈ staging, e.isStaging = true)
    (hpost : ∀ e ∈ post, e.isStaging = false)
    (h : collectiveBeforeStaging (pre ++ staging ++ post) = some b) : b = x := by
  unfold collectiveBeforeStaging at h
  split at h
  · cases staging with
    | nil =>
      rename_i hany
      simp only [List.append_nil, List.any_append, Bool.or_eq_true, List.any_eq_true] at hany
      rcases hany with ⟨e, he, hs⟩ | ⟨e, he, hs⟩
      · rw [(hpre e he).1] at hs; cases hs
      · rw [hpost e he] at hs; cases hs
    | cons s t =>
      have hs : s.isStaging = true := hst s (by simp)
      rw [List.append_assoc, List.takeWhile_append_of_pos (fun e he => by simp [(hpre e he).1]),
        List.cons_append, List.takeWhile_cons_of_neg (by simp [hs]), List.append_nil] at h
      have hb := List.mem_of_getLast?_eq_some h
      rw [List.mem_filter] at hb
      exact (hpre b hb.1).2 hb.2
  · cases h

theorem isAlgo_of_isStaging (e : Event T) (h : e.isStaging = true) : e.isAlgo = false := by
  cases e <;> simp [Event.isStaging, Event.isAlgo] at h ⊢

theorem Run.forEach_ok (P : Event T → Prop) (body : Nat → Run T Unit)
    (hb : ∀ i, (body i).result = .ok () ∧ ∀ e ∈ (body i).trace, P e) (l : List Nat) :
    (Run.forEach body l).result = .ok () ∧ ∀ e ∈ (Run.forEach body l).trace, P e := by
  induction l with
  | nil => simp [Run.forEach, Run.ret]
  | cons i rest ih =>
    unfold Run.forEach
    refine ⟨?_, Run.forall_andThen P _ _ (hb i).2 (fun _ => ih.2)⟩
    simp only [Run.andThen, (hb i).1, ih.1]

theorem Run.ok_andThen (P : Event T → Prop) (x : Run T Unit) (f : Unit → Run T Unit)
    (hx : x.result = .ok () ∧ ∀ e ∈ x.trace, P e)
    (hf : (f ()).result = .ok () ∧ ∀ e ∈ (f ()).trace, P e) :
    (x.andThen f).result = .ok () ∧ ∀ e ∈ (x.andThen f).trace, P e := by
  refine ⟨?_, Run.forall_andThen P x f hx.2 (fun _ => hf.2)⟩
  simp only [Run.andThen, hx.1, hf.1]

theorem Run.ok_ite (P : Event T → Prop) (c : Prop) [Decidable c] (x y : Run T Unit)
    (hx : x.result = .ok () ∧ ∀ e ∈ x.trace, P e)
    (hy : y.result = .ok () ∧ ∀ e ∈ y.trace, P e) :
    (if c then x else y).result = .ok () ∧ ∀ e ∈ (if c then x else y).trace, P e := by
  split_ifs <;> assumption

theorem hostNames_ok (w : World T) (o : ProgramOptions) (c : Comm) :
    (main.hostNames w o c).result = .ok () ∧
      ∀ e ∈ (main.hostNames w o c).trace, e.isAll2all = false ∧ e.isIngestion = false := by
  unfold main.hostNames
  apply Run.ok_ite
  · simp only [Run.bind_eq, Run.pure_eq]
    apply Run.ok_andThen
    · apply Run.ok_ite <;>
        simp [Run.andThen, Run.emit, Run.ret, Event.isAll2all, Event.isIngestion]
    apply Run.ok_andThen
    · apply Run.forEach_ok
      intro i
      apply Run.ok_andThen
      · apply Run.ok_ite <;> simp [Run.emit, Run.ret, Event.isAll2all, Event.isIngestion]
      · apply Run.ok_ite <;>
          simp [Run.andThen, Run.emit, Run.ret, Event.isAll2all, Event.isIngestion]
    · apply Run.ok_ite <;> simp [Run.emit, Run.ret, Event.isAll2all, Event.isIngestion]
  · simp [Run.pure_eq, Run.ret]

theorem parse_trace (w : World T) (cl : CommandLine) :
    ∀ e ∈ (ProgramOptions.parse w cl).trace, e.isAll2all = false ∧ e.isIngestion = false := by
  unfold ProgramOptions.parse
  cases cl.store with
  | error what => simp [Run.raise]
  | ok vm =>
    simp only []
    split_ifs <;>
      simp [Run.andThen, Run.emit, Run.ret, Run.raise, Event.isAll2all, Event.isIngestion]

theorem warmup_eq (o : ProgramOptions) (c : Comm) :
    (main.warmup o c : Run T Unit) =
      ⟨if decide (c.size > 1) && o.warmupMPI then
          [.barrier, .all2all 1 c.size c.size,
            .all2allv c.size (List.replicate c.size 1) (List.range c.size)
              c.size (List.replicate c.size 1) (List.range c.size), .barrier]
        else [], .ok ()⟩ := by
  unfold main.warmup warmupMPI
  split_ifs <;> simp [Run.bind_eq, Run.pure_eq, Run.andThen, Run.emit, Run.ret]

theorem main_of_parse_ok (U : UintSetDecl) (w : World T) (cl : CommandLine) (c : Comm)
    (o : ProgramOptions) (hparse : (ProgramOptions.parse w cl).result = .ok o) :
    main U w cl c =
      ⟨.barrier :: (ProgramOptions.parse w cl).trace ++ (main.hostNames w o c).trace ++
          (main.warmup o c : Run T Unit).trace ++ (main.execute U w o c).trace,
        (main.execute U w o c).result⟩ := by
  have hH := (hostNames_ok w o c).1
  have hW : (main.warmup o c : Run T Unit).result = .ok () := by rw [warmup_eq]
  unfold main main.parseOptions
  rcases hP : ProgramOptions.parse w cl with ⟨pt, pr⟩
  rw [hP] at hparse
  simp only at hparse
  subst hparse
  simp [Run.bind_eq, Run.pure_eq, Run.andThen, Run.emit, Run.ret, Run.tryCatch, hH, hW]

theorem sub32_one (a : Nat) (h0 : 0 < a) (h32 : a < 2 ^ 32) : sub32 a 1 = a - 1 := by
  unfold sub32
  omega

theorem entered_Reader_learnNetwork (U : UintSetDecl)
    (hdef : U.defaultSize .uint8_t = U.maxSize .uint8_t)
    (w : World T) (dt : DataType) (o : ProgramOptions) (c : Comm) :
    entered (Reader.learnNetwork U w dt o c).trace =
      match Fin.find (fun i => sub32 (max o.numVars o.numObs) 1 ≤ tierCapacity U i) with
      | some i => [tiers U i]
      | none => [] := by
  rw [Reader_learnNetwork_eq_find U hdef]
  generalize sub32 (max o.numVars o.numObs) 1 = s1
  cases Fin.find (fun i => s1 ≤ tierCapacity U i) with
  | none => rfl
  | some i => exact entered_branch w dt _ _ o c _ _

theorem tiers_injective (U : UintSetDecl) (hinc : StrictMono (tierCapacity U)) :
    Function.Injective (tiers U) := by
  intro i j h
  apply hinc.injective
  simp only [tierCapacity, h]

theorem tierCapacity_UintSet_strictMono : StrictMono (tierCapacity UintSet) := by
  intro i j
  revert i j
  decide

end Lemmas

/-! ## Capacity dispatcher -/

/-- C1: for `n, m > 0` and strictly increasing tier capacities, the dispatcher enters
exactly the specialisation of tier `i` if and only if `s - 1` is at most the capacity
of tier `i` and exceeds the capacity of the tier before it (no condition for the
first tier), where `s = max n m`; equivalently tier `i` is the least tier whose
capacity is at least `s - 1`; and `s = 1` selects the first tier. -/
theorem dispatch_selects_least_sufficient_tier {T : Type} (U : UintSetDecl)
    (hdef : U.defaultSize .uint8_t = U.maxSize .uint8_t)
    (hinc : StrictMono (tierCapacity U))
    (w : World T) (dataType : DataType) (options : ProgramOptions) (comm : Comm)
    (hn : 0 < options.numVars) (hm : 0 < options.numObs)
    (hn32 : options.numVars < 2 ^ 32) (hm32 : options.numObs < 2 ^ 32) :
    (∀ i : Fin 11,
      entered (Reader.learnNetwork U w dataType options comm).trace = [tiers U i] ↔
        (max options.numVars options.numObs - 1 ≤ tierCapacity U i ∧
          ∀ j : Fin 11, j.val + 1 = i.val →
            tierCapacity U j < max options.numVars options.numObs - 1)) ∧
    (∀ i : Fin 11,
      entered (Reader.learnNetwork U w dataType options comm).trace = [tiers U i] ↔
        (max options.numVars options.numObs - 1 ≤ tierCapacity U i ∧
          ∀ j : Fin 11, max options.numVars options.numObs - 1 ≤ tierCapacity U j → i ≤ j)) ∧
    (max options.numVars options.numObs = 1 →
      entered (Reader.learnNetwork U w dataType options comm).trace = [tiers U 0]) := by
  have hs : sub32 (max options.numVars options.numObs) 1 =
      max options.numVars options.numObs - 1 := by
    apply sub32_one
    · exact lt_of_lt_of_le (lt_min hn hm) (min_le_max)
    · exact max_lt hn32 hm32
  have hrun := entered_Reader_learnNetwork U hdef w dataType options comm
  rw [hs] at hrun
  generalize max options.numVars options.numObs = s at hrun hs ⊢
  generalize entered (Reader.learnNetwork U w dataType options comm).trace = t at hrun ⊢
  have hfind : ∀ i : Fin 11, t = [tiers U i] ↔
      (s - 1 ≤ tierCapacity U i ∧ ∀ j : Fin 11, s - 1 ≤ tierCapacity U j → i ≤ j) := by
    intro i
    rw [← Fin.find_eq_some_iff (p := fun i => s - 1 ≤ tierCapacity U i), hrun]
    cases Fin.find (fun i => s - 1 ≤ tierCapacity U i) with
    | none => simp
    | some k =>
      simp only [List.cons.injEq, and_true, Option.some.injEq]
      exact (tiers_injective U hinc).eq_iff
  refine ⟨?_, hfind, ?_⟩
  · intro i
    rw [hfind i]
    constructor
    · rintro ⟨hi, hmin⟩
      refine ⟨hi, fun j hj => ?_⟩
      by_contra hcon
      have := hmin j (not_lt.1 hcon)
      have : i.val ≤ j.val := this
      omega
    · rintro ⟨hi, hprev⟩
      refine ⟨hi, fun j hj => ?_⟩
      by_contra hcon
      have hji : j.val < i.val := not_le.1 hcon
      have hk : i.val - 1 < 11 := by omega
      have h1 := hprev ⟨i.val - 1, hk⟩ (by simp; omega)
      have h2 : tierCapacity U j ≤ tierCapacity U ⟨i.val - 1, hk⟩ :=
        hinc.monotone (by show j.val ≤ i.val - 1; omega)
      omega
  · intro h1
    rw [hfind 0]
    refine ⟨by omega, fun j _ => Fin.zero_le j⟩

/-- C1, at a concrete input: 500 variables and 20000 observations with the modelled
capacities. -/
theorem dispatch_selects_least_sufficient_tier_witness :
    (UintSet.defaultSize .uint8_t = UintSet.maxSize .uint8_t ∧
      StrictMono (tierCapacity UintSet) ∧
      0 < sampleOptions.numVars ∧ 0 < sampleOptions.numObs ∧
      sampleOptions.numVars < 2 ^ 32 ∧ sampleOptions.numObs < 2 ^ 32) ∧
    ((∀ i : Fin 11,
      entered (Reader.learnNetwork UintSet sampleWorld .double sampleOptions ⟨0, 1⟩).trace =
          [tiers UintSet i] ↔
        (max sampleOptions.numVars sampleOptions.numObs - 1 ≤ tierCapacity UintSet i ∧
          ∀ j : Fin 11, j.val + 1 = i.val →
            tierCapacity UintSet j < max sampleOptions.numVars sampleOptions.numObs - 1)) ∧
    (∀ i : Fin 11,
      entered (Reader.learnNetwork UintSet sampleWorld .double sampleOptions ⟨0, 1⟩).trace =
          [tiers UintSet i] ↔
        (max sampleOptions.numVars sampleOptions.numObs - 1 ≤ tierCapacity UintSet i ∧
          ∀ j : Fin 11, max sampleOptions.numVars sampleOptions.numObs - 1 ≤
            tierCapacity UintSet j → i ≤ j)) ∧
    (max sampleOptions.numVars sampleOptions.numObs = 1 →
      entered (Reader.learnNetwork UintSet sampleWorld .double sampleOptions ⟨0, 1⟩).trace =
        [tiers UintSet 0])) :=
  ⟨⟨rfl, tierCapacity_UintSet_strictMono, by decide, by decide, by decide, by decide⟩,
    dispatch_selects_least_sufficient_tier UintSet rfl tierCapacity_UintSet_strictMono
      sampleWorld .double sampleOptions ⟨0, 1⟩ (by decide) (by decide) (by decide) (by decide)⟩

/-- C2: when `s - 1`, computed in unsigned 32-bit arithmetic for `s = max n m`, exceeds
the capacity of the last tier (the largest one, capacities increasing), the
dispatcher throws the "not supported" runtime error and issues no event at all: no
`RawData`, no algorithm, no broadcast, no barrier, no directory, no copy. -/
theorem dispatch_unsupported_size_fails_without_effects {T : Type} (U : UintSetDecl)
    (hdef : U.defaultSize .uint8_t = U.maxSize .uint8_t)
    (hinc : StrictMono (tierCapacity U))
    (w : World T) (dataType : DataType) (options : ProgramOptions) (comm : Comm)
    (hbig : tierCapacity U 10 < sub32 (max options.numVars options.numObs) 1) :
    Reader.learnNetwork U w dataType options comm =
      ⟨[], .error (.runtime_error
        "The given number of variables and observations is not supported.")⟩ := by
  rw [Reader_learnNetwork_eq_find U hdef]
  generalize sub32 (max options.numVars options.numObs) 1 = s1 at hbig ⊢
  have hnone : Fin.find (fun i => s1 ≤ tierCapacity U i) = none := by
    rw [Fin.find_eq_none_iff]
    intro i hi
    have : tierCapacity U i ≤ tierCapacity U 10 := hinc.monotone (Fin.le_last i)
    omega
  rw [hnone]
  rfl

/-- C2, at a concrete input: 70000 variables exceed the modelled capacity 65535. -/
theorem dispatch_unsupported_size_fails_without_effects_witness :
    (UintSet.defaultSize .uint8_t = UintSet.maxSize .uint8_t ∧
      StrictMono (tierCapacity UintSet) ∧
      tierCapacity UintSet 10 <
        sub32 (max ({ sampleOptions with m_numVars := 70000 } : ProgramOptions).numVars
          ({ sampleOptions with m_numVars := 70000 } : ProgramOptions).numObs) 1) ∧
    Reader.learnNetwork UintSet sampleWorld .double
        { sampleOptions with m_numVars := 70000 } ⟨0, 1⟩ =
      ⟨[], .error (.runtime_error
        "The given number of variables and observations is not supported.")⟩ :=
  ⟨⟨rfl, tierCapacity_UintSet_strictMono, by decide⟩,
    dispatch_unsupported_size_fails_without_effects UintSet rfl
      tierCapacity_UintSet_strictMono sampleWorld .double
      { sampleOptions with m_numVars := 70000 } ⟨0, 1⟩ (by decide)⟩

/-- C9 as stated fails: with the modelled capacities the last tier has capacity 65535,
yet for 500 variables and 20000 observations the dispatcher does not enter it. -/
theorem dispatch_500_20000_not_full_range :
    sampleOptions.numVars = 500 ∧ sampleOptions.numObs = 20000 ∧
    tierCapacity UintSet 10 = 65535 ∧ tiers UintSet 10 = (.uint16_t, 65536) ∧
    entered (Reader.learnNetwork UintSet sampleWorld .double sampleOptions ⟨0, 1⟩).trace ≠
      [tiers UintSet 10] := by
  refine ⟨rfl, rfl, by decide, by decide, ?_⟩
  rw [entered_Reader_learnNetwork UintSet rfl]
  have h : Fin.find (fun i => sub32 (max sampleOptions.numVars sampleOptions.numObs) 1 ≤
      tierCapacity UintSet i) = some 9 := by
    rw [Fin.find_eq_some_iff]
    decide
  rw [h]
  decide

/-- C9, amended: for 500 variables and 20000 observations (`s - 1 = 19999`) the
dispatcher enters exactly the 16-bit tier of set size `maxSize<uint16_t>() >> 1`,
whose capacity 32767 is the least one that is at least 19999 (the tier before it has
capacity 16383); the full-range tier of capacity 65535 is not entered. -/
theorem dispatch_500_20000_selects_half_range {T : Type} (w : World T) (dataType : DataType)
    (options : ProgramOptions) (comm : Comm) :
    entered (Reader.learnNetwork UintSet w dataType
        { options with m_numVars := 500, m_numObs := 20000 } comm).trace =
      [(.uint16_t, UintSet.maxSize .uint16_t >>> 1)] ∧
    tiers UintSet 9 = (.uint16_t, UintSet.maxSize .uint16_t >>> 1) ∧
    tierCapacity UintSet 8 = 16383 ∧ tierCapacity UintSet 9 = 32767 ∧
    tierCapacity UintSet 10 = 65535 ∧
    sub32 (max 500 20000) 1 = 19999 := by
  refine ⟨?_, rfl, by decide, by decide, by decide, by decide⟩
  rw [entered_Reader_learnNetwork UintSet rfl]
  have h : Fin.find (fun i =>
      sub32 (max ({ options with m_numVars := 500, m_numObs := 20000 } : ProgramOptions).numVars
        ({ options with m_numVars := 500, m_numObs := 20000 } : ProgramOptions).numObs) 1 ≤
      tierCapacity UintSet i) = some 9 := by
    rw [Fin.find_eq_some_iff]
    simp only [ProgramOptions.numVars, ProgramOptions.numObs]
    decide
  rw [h]
  rfl

/-! ## Algorithm registry -/

/-- C3: `getAlgorithm` returns a `LemonTree` object for the name "lemontree", a
`Genomica` object for the name "genomica", and for every other name throws a runtime
error whose message is the same for every unknown name and lists "lemontree" and then
"genomica"; in no case does it return an empty pointer. -/
theorem getAlgorithm_resolves_or_fails {T : Type} (var : Var) (setSize : Nat) (comm : Comm)
    (data : RawData) (algoName : String) :
    (algoName = "lemontree" →
      (getAlgorithm var setSize algoName comm data : Run T _).result =
        .ok (some (.LemonTree var setSize comm data))) ∧
    (algoName = "genomica" →
      (getAlgorithm var setSize algoName comm data : Run T _).result =
        .ok (some (.Genomica var setSize comm data))) ∧
    (algoName ≠ "lemontree" → algoName ≠ "genomica" →
      (getAlgorithm var setSize algoName comm data : Run T _) =
        ⟨[], .error (.runtime_error
          ("Requested algorithm not found. Supported algorithms are: \x7b" ++
            "lemontree" ++ "," ++ "genomica" ++ "\x7d"))⟩) ∧
    (getAlgorithm var setSize algoName comm data : Run T _).result ≠ .ok none := by
  have hne : "genomica" ≠ "lemontree" := by decide
  refine ⟨?_, ?_, ?_, ?_⟩
  · intro h
    simp [getAlgorithm, h, Run.bind_eq, Run.pure_eq, Run.andThen, Run.emit, Run.ret]
  · intro h
    simp [getAlgorithm, h, hne, Run.bind_eq, Run.pure_eq, Run.andThen, Run.emit, Run.ret]
  · intro h1 h2
    simp only [getAlgorithm, h1, h2, if_false, Run.raise]
    rfl
  · unfold getAlgorithm
    split_ifs <;> simp [Run.bind_eq, Run.pure_eq, Run.andThen, Run.emit, Run.ret, Run.raise]

/-- C3, at concrete names: a differently-cased name, a padded name and the empty name
are unknown. -/
theorem getAlgorithm_resolves_or_fails_witness :
    ("LemonTree" ≠ "lemontree" ∧ "LemonTree" ≠ "genomica") ∧
    (getAlgorithm .uint8_t 64 "LemonTree" ⟨0, 1⟩ ⟨.double, .uint8_t, 3, 5⟩ : Run Unit _) =
        ⟨[], .error (.runtime_error
          ("Requested algorithm not found. Supported algorithms are: \x7b" ++
            "lemontree" ++ "," ++ "genomica" ++ "\x7d"))⟩ ∧
    (getAlgorithm .uint8_t 64 "lemontree" ⟨0, 1⟩ ⟨.double, .uint8_t, 3, 5⟩ : Run Unit _).result =
        .ok (some (.LemonTree .uint8_t 64 ⟨0, 1⟩ ⟨.double, .uint8_t, 3, 5⟩)) :=
  ⟨⟨by decide, by decide⟩,
    (getAlgorithm_resolves_or_fails .uint8_t 64 ⟨0, 1⟩ ⟨.double, .uint8_t, 3, 5⟩
      "LemonTree").2.2.1 (by decide) (by decide),
    (getAlgorithm_resolves_or_fails .uint8_t 64 ⟨0, 1⟩ ⟨.double, .uint8_t, 3, 5⟩
      "lemontree").1 rfl⟩

/-! ## Configuration distributor -/

/-- C4: when the leader can read the configuration file, with content `content`, then
in a group of any size `p` the string the leader passes to the broadcast is `content`,
every process (leader or not) receives `content` from the broadcast and parses a
buffer holding exactly `content`, and all processes obtain the same result, the parse
of `content`. -/
theorem readConfigs_broadcast_roundtrip {T : Type} (w : World T) (configFile content : String)
    (hread : w.ifstream configFile = some content) (p rank : Nat) (hrank : rank < p) :
    (readConfigs.local w configFile ⟨0, p⟩).1 = content ∧
    (readConfigs w configFile ⟨rank, p⟩).trace = [.bcast 0 content, .read_json content] ∧
    (readConfigs w configFile ⟨rank, p⟩).result = (readConfigs w configFile ⟨0, p⟩).result ∧
    (readConfigs w configFile ⟨rank, p⟩).result =
      (match w.read_json content with
        | .ok t => .ok t
        | .error what => .error (.runtime_error what)) := by
  have _ := hrank
  refine ⟨?_, ?_, ?_, ?_⟩
  · simp [readConfigs.local, Comm.is_first, hread]
  · rw [readConfigs_eq]; simp [hread]
  · rw [readConfigs_eq, readConfigs_eq]
  · rw [readConfigs_eq]; simp [hread]

/-- C4, at a concrete input: rank 2 of a group of 3 with the sample world. -/
theorem readConfigs_broadcast_roundtrip_witness :
    (sampleWorld.ifstream "lemontree_configs.json" = some "\x7b\x7d" ∧ 2 < 3) ∧
    (readConfigs.local sampleWorld "lemontree_configs.json" ⟨0, 3⟩).1 = "\x7b\x7d" ∧
    (readConfigs sampleWorld "lemontree_configs.json" ⟨2, 3⟩).trace =
      [.bcast 0 "\x7b\x7d", .read_json "\x7b\x7d"] ∧
    (readConfigs sampleWorld "lemontree_configs.json" ⟨2, 3⟩).result =
      (readConfigs sampleWorld "lemontree_configs.json" ⟨0, 3⟩).result ∧
    (readConfigs sampleWorld "lemontree_configs.json" ⟨2, 3⟩).result =
      (match sampleWorld.read_json "\x7b\x7d" with
        | .ok t => .ok t
        | .error what => .error (.runtime_error what)) :=
  ⟨⟨rfl, by decide⟩,
    readConfigs_broadcast_roundtrip sampleWorld "lemontree_configs.json" "\x7b\x7d" rfl 3 2
      (by decide)⟩

/-- C5: when the leader cannot open the configuration file (and the parser rejects
empty text), the leader passes the empty string to the broadcast, and every process,
leader included, issues that broadcast, parses an empty buffer and throws the same
parse error; none returns a configuration. -/
theorem readConfigs_unreadable_file_fails_everywhere {T : Type} (w : World T)
    (configFile what : String) (hopen : w.ifstream configFile = none)
    (hempty : w.read_json "" = .error what) (p rank : Nat) (hrank : rank < p) :
    (readConfigs.local w configFile ⟨0, p⟩).1 = "" ∧
    readConfigs w configFile ⟨rank, p⟩ =
      ⟨[.bcast 0 "", .read_json ""], .error (.runtime_error what)⟩ := by
  have _ := hrank
  refine ⟨?_, ?_⟩
  · simp [readConfigs.local, Comm.is_first, hopen]
  · rw [readConfigs_eq]; simp [hopen, hempty]

/-- C5, at a concrete input: the leader and rank 1 of a group of 2, the file missing. -/
theorem readConfigs_unreadable_file_fails_everywhere_witness :
    (({ sampleWorld with ifstream := fun _ => none } : World String).ifstream "missing.json" =
        none ∧
      ({ sampleWorld with ifstream := fun _ => none } : World String).read_json "" =
        .error "expected value" ∧ 0 < 2 ∧ 1 < 2) ∧
    readConfigs { sampleWorld with ifstream := fun _ => none } "missing.json" ⟨0, 2⟩ =
      ⟨[.bcast 0 "", .read_json ""], .error (.runtime_error "expected value")⟩ ∧
    readConfigs { sampleWorld with ifstream := fun _ => none } "missing.json" ⟨1, 2⟩ =
      ⟨[.bcast 0 "", .read_json ""], .error (.runtime_error "expected value")⟩ :=
  ⟨⟨rfl, rfl, by decide, by decide⟩,
    (readConfigs_unreadable_file_fails_everywhere { sampleWorld with ifstream := fun _ => none }
      "missing.json" "expected value" rfl rfl 2 0 (by decide)).2,
    (readConfigs_unreadable_file_fails_everywhere { sampleWorld with ifstream := fun _ => none }
      "missing.json" "expected value" rfl rfl 2 1 (by decide)).2⟩

/-! ## Output stager and algorithm invocation -/

/-- C6 as stated fails: on the leader of a group of two, with the sample world, the
collective call issued last before the staging step (here the configuration copy) is
the configuration broadcast, not a barrier. -/
theorem learnNetwork_no_barrier_before_staging :
    (learnNetwork sampleWorld .uint16_t 32768 sampleOptions ⟨0, 2⟩
        ⟨.double, .uint16_t, 500, 20000⟩).trace =
      [.learnNetwork .uint16_t 32768,
        .construct (.LemonTree .uint16_t 32768 ⟨0, 2⟩ ⟨.double, .uint16_t, 500, 20000⟩),
        .bcast 0 "\x7b\x7d", .read_json "\x7b\x7d",
        .copy_file "lemontree_configs.json" "./configs.json",
        .barrier,
        .algoLearnNetwork
          (.LemonTree .uint16_t 32768 ⟨0, 2⟩ ⟨.double, .uint16_t, 500, 20000⟩) true
          "\x7b\x7d" ".",
        .barrier] ∧
    collectiveBeforeStaging (learnNetwork sampleWorld .uint16_t 32768 sampleOptions ⟨0, 2⟩
        ⟨.double, .uint16_t, 500, 20000⟩).trace = some (.bcast 0 "\x7b\x7d") ∧
    collectiveBeforeStaging (learnNetwork sampleWorld .uint16_t 32768 sampleOptions ⟨0, 2⟩
        ⟨.double, .uint16_t, 500, 20000⟩).trace ≠ some .barrier := by
  have h : (learnNetwork sampleWorld .uint16_t 32768 sampleOptions ⟨0, 2⟩
        ⟨.double, .uint16_t, 500, 20000⟩).trace =
      [.learnNetwork .uint16_t 32768,
        .construct (.LemonTree .uint16_t 32768 ⟨0, 2⟩ ⟨.double, .uint16_t, 500, 20000⟩),
        .bcast 0 "\x7b\x7d", .read_json "\x7b\x7d",
        .copy_file "lemontree_configs.json" "./configs.json",
        .barrier,
        .algoLearnNetwork
          (.LemonTree .uint16_t 32768 ⟨0, 2⟩ ⟨.double, .uint16_t, 500, 20000⟩) true
          "\x7b\x7d" ".",
        .barrier] := by rfl
  rw [h]
  refine ⟨rfl, rfl, ?_⟩
  intro hcon
  have : collectiveBeforeStaging
      ([.learnNetwork .uint16_t 32768,
        .construct (.LemonTree .uint16_t 32768 ⟨0, 2⟩ ⟨.double, .uint16_t, 500, 20000⟩),
        .bcast 0 "\x7b\x7d", .read_json "\x7b\x7d",
        .copy_file "lemontree_configs.json" "./configs.json",
        .barrier,
        .algoLearnNetwork
          (.LemonTree .uint16_t 32768 ⟨0, 2⟩ ⟨.double, .uint16_t, 500, 20000⟩) true
          "\x7b\x7d" ".",
        .barrier] : List (Event String)) = some (.bcast 0 "\x7b\x7d") := rfl
  rw [this] at hcon
  cases hcon

/-- The trace of `learnNetwork<Var, Size, Data>` splits into a part before staging, the
staging events and a part after staging that is empty or starts with a barrier. -/
theorem learnNetwork_parts {T : Type} (w : World T) (var : Var)
    (setSize : Nat) (options : ProgramOptions) (comm : Comm) (data : RawData) :
    (∃ pre staging post,
      (learnNetwork w var setSize options comm data).trace = pre ++ staging ++ post ∧
      (∀ e ∈ pre, e.isStaging = false ∧ e.isAlgo = false ∧
        (e.isCollective = true → e = .bcast 0 ((w.ifstream options.configFile).getD ""))) ∧
      (∀ e ∈ staging, e.isStaging = true ∧ e.isAlgo = false) ∧
      (comm.is_first = false → staging = []) ∧
      (post = [] ∨ ∃ rest, post = .barrier :: rest ∧ ∀ e ∈ rest, e.isStaging = false)) ∧
    (∀ b, collectiveBeforeStaging (learnNetwork w var setSize options comm data).trace = some b →
      b = .bcast 0 ((w.ifstream options.configFile).getD "")) := by
  have hG := getAlgorithm_trace_construct (T := T) var setSize options.algoName comm data
  have hpre1 : ∀ e ∈ Event.learnNetwork var setSize ::
      (getAlgorithm var setSize options.algoName comm data : Run T _).trace,
      e.isStaging = false ∧ e.isAlgo = false ∧
        (e.isCollective = true → e = .bcast 0 ((w.ifstream options.configFile).getD "")) := by
    intro e he
    rcases List.mem_cons.1 he with rfl | he
    · simp [Event.isStaging, Event.isAlgo, Event.isCollective]
    · obtain ⟨a, rfl⟩ := hG e he
      simp [Event.isStaging, Event.isAlgo, Event.isCollective]
  have hpre2 : ∀ e ∈ Event.learnNetwork var setSize ::
      (getAlgorithm var setSize options.algoName comm data : Run T _).trace ++
        [.bcast 0 ((w.ifstream options.configFile).getD ""),
          .read_json ((w.ifstream options.configFile).getD "")],
      e.isStaging = false ∧ e.isAlgo = false ∧
        (e.isCollective = true → e = .bcast 0 ((w.ifstream options.configFile).getD "")) := by
    intro e he
    rcases List.mem_append.1 he with he | he
    · exact hpre1 e he
    · simp only [List.mem_cons, List.mem_singleton, List.not_mem_nil, or_false] at he
      rcases he with rfl | rfl <;> simp [Event.isStaging, Event.isAlgo, Event.isCollective]
  have hS : ∀ e ∈ (learnNetwork.stage w options comm).trace,
      e.isStaging = true ∧ e.isAlgo = false := by
    intro e he
    have h1 := stage_trace_isStaging w options comm e he
    exact ⟨h1, isAlgo_of_isStaging e h1⟩
  have hS0 : comm.is_first = false → (learnNetwork.stage w options comm).trace = [] := by
    intro h; rw [stage_not_first w options comm h]
  have hparts : ∃ pre staging post,
      (learnNetwork w var setSize options comm data).trace = pre ++ staging ++ post ∧
      (∀ e ∈ pre, e.isStaging = false ∧ e.isAlgo = false ∧
        (e.isCollective = true → e = .bcast 0 ((w.ifstream options.configFile).getD ""))) ∧
      (∀ e ∈ staging, e.isStaging = true ∧ e.isAlgo = false) ∧
      (comm.is_first = false → staging = []) ∧
      (post = [] ∨ ∃ rest, post = .barrier :: rest ∧ ∀ e ∈ rest, e.isStaging = false) := by
    rw [learnNetwork_run]
    split
    · exact ⟨_, [], [], by simp, hpre1, by simp, by simp, Or.inl rfl⟩
    · rename_i algo _
      split
      · exact ⟨_, [], [], by simp, hpre2, by simp, by simp, Or.inl rfl⟩
      · rename_i configs _
        split
        · exact ⟨_, _, [], by simp, hpre2, hS, hS0, Or.inl rfl⟩
        · have hC := call_trace w algo (decide (comm.size > 1) || options.forceParallel)
            configs options.outputDir
          split
          · refine ⟨_, _, _, rfl, hpre2, hS, hS0, Or.inr ⟨_, rfl, ?_⟩⟩
            intro e he
            obtain ⟨a, _, rfl⟩ := hC e he
            rfl
          · refine ⟨_, _, _, rfl, hpre2, hS, hS0, Or.inr ⟨_, rfl, ?_⟩⟩
            intro e he
            rcases List.mem_append.1 he with he | he
            · obtain ⟨a, _, rfl⟩ := hC e he
              rfl
            · simp only [List.mem_singleton] at he
              subst he
              rfl
  refine ⟨hparts, ?_⟩
  obtain ⟨pre, staging, post, htr, hpre, hst, _, hpost⟩ := hparts
  intro b hb
  rw [htr] at hb
  refine collectiveBeforeStaging_of_parts pre staging post _ b
    (fun e he => ⟨(hpre e he).1, (hpre e he).2.2⟩) (fun e he => (hst e he).1) ?_ hb
  rcases hpost with rfl | ⟨rest, rfl, hrest⟩
  · simp
  · intro e he
    rcases List.mem_cons.1 he with rfl | he
    · rfl
    · exact hrest e he

/-- The arguments of every invocation of the algorithm by `learnNetwork<Var, Size, Data>`. -/
theorem algoLearnNetwork_arguments {T : Type} (w : World T) (var : Var)
    (setSize : Nat) (options : ProgramOptions) (comm : Comm) (data : RawData)
    (hp : 1 ≤ comm.size) :
    (∀ a isParallel configs outputDir,
      Event.algoLearnNetwork a isParallel configs outputDir ∈
          (learnNetwork w var setSize options comm data).trace →
        isParallel = (decide (comm.size > 1) || options.forceParallel) ∧
        w.read_json ((w.ifstream options.configFile).getD "") = .ok configs ∧
        Event.bcast 0 ((w.ifstream options.configFile).getD "") ∈
          (learnNetwork w var setSize options comm data).trace ∧
        outputDir = options.outputDir) ∧
    ((decide (comm.size > 1) || options.forceParallel) = false ↔
      (comm.size = 1 ∧ options.forceParallel = false)) ∧
    (∀ configs, (options.algoName = "lemontree" ∨ options.algoName = "genomica") →
      w.read_json ((w.ifstream options.configFile).getD "") = .ok configs →
      (learnNetwork.stage w options comm).result = .ok () →
      ∃ a, Event.algoLearnNetwork a (decide (comm.size > 1) || options.forceParallel) configs
        options.outputDir ∈ (learnNetwork w var setSize options comm data).trace) := by
  have hG := getAlgorithm_trace_construct (T := T) var setSize options.algoName comm data
  have hS := stage_trace_isStaging w options comm
  refine ⟨?_, ?_, ?_⟩
  · intro a isParallel configs outputDir
    have htr := congrArg Run.trace (learnNetwork_run w var setSize options comm data)
    cases hGr : (getAlgorithm var setSize options.algoName comm data : Run T _).result with
    | error e =>
      simp only [hGr] at htr
      rw [htr]
      intro h
      rcases List.mem_cons.1 h with h | h
      · cases h
      · obtain ⟨a, ha⟩ := hG _ h
        cases ha
    | ok algo =>
      cases hcfg : w.read_json ((w.ifstream options.configFile).getD "") with
      | error what =>
        simp only [hGr, hcfg] at htr
        rw [htr]
        intro h
        simp only [List.cons_append, List.mem_cons, List.mem_append, List.mem_singleton,
          List.not_mem_nil, or_false, false_or, reduceCtorEq] at h
        obtain ⟨a, ha⟩ := hG _ h
        cases ha
      | ok cfg =>
        have hC := call_trace w algo (decide (comm.size > 1) || options.forceParallel)
          cfg options.outputDir
        have key : ∀ rest : List (Event T),
            (∀ e ∈ rest, e = .barrier ∨ e ∈ (learnNetwork.call w algo
              (decide (comm.size > 1) || options.forceParallel) cfg options.outputDir).trace) →
            Event.algoLearnNetwork a isParallel configs outputDir ∈
              Event.learnNetwork var setSize ::
                (getAlgorithm var setSize options.algoName comm data : Run T _).trace ++
                [.bcast 0 ((w.ifstream options.configFile).getD ""),
                  .read_json ((w.ifstream options.configFile).getD "")] ++
                (learnNetwork.stage w options comm).trace ++ rest →
            isParallel = (decide (comm.size > 1) || options.forceParallel) ∧
              (Except.ok cfg : Except String T) = Except.ok configs ∧
              Event.bcast 0 ((w.ifstream options.configFile).getD "") ∈
                Event.learnNetwork var setSize ::
                  (getAlgorithm var setSize options.algoName comm data : Run T _).trace ++
                  [.bcast 0 ((w.ifstream options.configFile).getD ""),
                    .read_json ((w.ifstream options.configFile).getD "")] ++
                  (learnNetwork.stage w options comm).trace ++ rest ∧
              outputDir = options.outputDir := by
          intro rest hrest h
          have hb : Event.bcast 0 ((w.ifstream options.configFile).getD "") ∈
              Event.learnNetwork var setSize ::
                (getAlgorithm var setSize options.algoName comm data : Run T _).trace ++
                [.bcast 0 ((w.ifstream options.configFile).getD ""),
                  .read_json ((w.ifstream options.configFile).getD "")] ++
                (learnNetwork.stage w options comm).trace ++ rest := by
            simp
          simp only [List.cons_append, List.mem_cons, List.mem_append, List.mem_singleton,
            List.not_mem_nil, or_false, false_or, reduceCtorEq, List.append_assoc] at h
          rcases h with h | h | h
          · obtain ⟨a, ha⟩ := hG _ h
            cases ha
          · have := hS _ h
            cases this
          · rcases hrest _ h with h | h
            · cases h
            · obtain ⟨a2, _, ha2⟩ := hC _ h
              cases ha2
              exact ⟨rfl, rfl, hb, rfl⟩
        cases hSr : (learnNetwork.stage w options comm).result with
        | error e =>
          simp only [hGr, hcfg, hSr] at htr
          rw [htr]
          intro h
          have := key [] (by simp) (by simpa using h)
          simpa using this
        | ok u =>
          cases hCr : (learnNetwork.call w algo (decide (comm.size > 1) || options.forceParallel)
            cfg options.outputDir).result with
          | error e =>
            simp only [hGr, hcfg, hSr, hCr] at htr
            rw [htr]
            exact key _ (fun e he => by
              rcases List.mem_cons.1 he with rfl | he
              · exact Or.inl rfl
              · exact Or.inr he)
          | ok u2 =>
            simp only [hGr, hcfg, hSr, hCr] at htr
            rw [htr]
            exact key _ (fun e he => by
              rcases List.mem_cons.1 he with rfl | he
              · exact Or.inl rfl
              · rcases List.mem_append.1 he with he | he
                · exact Or.inr he
                · simp only [List.mem_singleton] at he
                  exact Or.inl he)
  · cases options.forceParallel
    · simp; omega
    · simp
  · intro configs hname hcfg hstage
    rw [learnNetwork_run]
    have hGr : ∃ a, (getAlgorithm var setSize options.algoName comm data : Run T _).result =
        .ok (some a) := by
      have hne : "genomica" ≠ "lemontree" := by decide
      rcases hname with h | h
      · exact ⟨_, by
          simp [getAlgorithm, h, Run.bind_eq, Run.pure_eq, Run.andThen, Run.emit, Run.ret]; rfl⟩
      · exact ⟨_, by
          simp [getAlgorithm, h, hne, Run.bind_eq, Run.pure_eq, Run.andThen, Run.emit,
            Run.ret]; rfl⟩
    obtain ⟨a, ha⟩ := hGr
    refine ⟨a, ?_⟩
    rw [ha]
    simp only [hcfg, hstage]
    have hmem : Event.algoLearnNetwork a (decide (comm.size > 1) || options.forceParallel)
        configs options.outputDir ∈ (learnNetwork.call w (some a)
          (decide (comm.size > 1) || options.forceParallel) configs options.outputDir).trace := by
      unfold learnNetwork.call
      simp only []
      cases w.algoLearnNetwork a (decide (comm.size > 1) || options.forceParallel) configs
        options.outputDir <;>
      simp [Run.bind_eq, Run.pure_eq, Run.andThen, Run.emit, Run.ret, Run.raise]
    split <;> simp [hmem]

section SuccessLemmas

variable {T : Type}

theorem getAlgorithm_registered (v : Var) (sz : Nat) (name : String) (c : Comm) (d : RawData)
    (h : name = "lemontree" ∨ name = "genomica") :
    (getAlgorithm v sz name c d : Run T _) =
      ⟨[.construct (if name = "lemontree" then .LemonTree v sz c d else .Genomica v sz c d)],
        .ok (some (if name = "lemontree" then .LemonTree v sz c d else .Genomica v sz c d))⟩ := by
  have hne : "genomica" ≠ "lemontree" := by decide
  rcases h with rfl | rfl
  · simp [getAlgorithm, Run.bind_eq, Run.pure_eq, Run.andThen, Run.emit, Run.ret]
  · simp [getAlgorithm, hne, Run.bind_eq, Run.pure_eq, Run.andThen, Run.emit, Run.ret]

theorem stage_success (w : World T) (o : ProgramOptions) (c : Comm)
    (hdir : w.is_directory o.outputDir = true ∨ w.create_directories o.outputDir = .ok true)
    (hcopy : w.copy_file o.configFile (o.outputDir ++ "/configs.json") = .ok ()) :
    learnNetwork.stage w o c =
      ⟨if c.is_first = true then
          (if w.is_directory o.outputDir = true then []
            else [.create_directories o.outputDir]) ++
            [.copy_file o.configFile (o.outputDir ++ "/configs.json")]
        else [], .ok ()⟩ := by
  unfold learnNetwork.stage
  cases c.is_first
  · simp [Run.pure_eq, Run.ret]
  · cases hd : w.is_directory o.outputDir
    · rcases hdir with hdir | hdir
      · rw [hd] at hdir; cases hdir
      · simp [hdir, hcopy, Run.bind_eq, Run.pure_eq, Run.andThen, Run.emit, Run.ret,
          Run.ofExcept]
    · simp [hcopy, Run.bind_eq, Run.pure_eq, Run.andThen, Run.emit, Run.ret, Run.ofExcept]

theorem call_some (w : World T) (a : ModuleNetworkLearning) (b : Bool) (configs : T)
    (dir : String) :
    (learnNetwork.call w (some a) b configs dir).trace = [.algoLearnNetwork a b configs dir] := by
  unfold learnNetwork.call
  simp only []
  cases w.algoLearnNetwork a b configs dir <;>
    simp [Run.bind_eq, Run.pure_eq, Run.andThen, Run.emit, Run.ret, Run.raise]

theorem call_some_result (w : World T) (a : ModuleNetworkLearning) (b : Bool) (configs : T)
    (dir : String) :
    (learnNetwork.call w (some a) b configs dir).result =
      match w.algoLearnNetwork a b configs dir with
      | .ok _ => .ok ()
      | .error e => .error e := by
  unfold learnNetwork.call
  simp only []
  cases w.algoLearnNetwork a b configs dir <;>
    simp [Run.bind_eq, Run.pure_eq, Run.andThen, Run.emit, Run.ret, Run.raise]

/-- The trace of `learnNetwork<Var, Size, Data>` when the algorithm is registered, the
configuration parses and the leader's staging succeeds. -/
theorem learnNetwork_trace_success (w : World T) (v : Var) (sz : Nat) (o : ProgramOptions)
    (c : Comm) (d : RawData) (configs : T)
    (hname : o.algoName = "lemontree" ∨ o.algoName = "genomica")
    (hcfg : w.read_json ((w.ifstream o.configFile).getD "") = .ok configs)
    (hdir : w.is_directory o.outputDir = true ∨ w.create_directories o.outputDir = .ok true)
    (hcopy : w.copy_file o.configFile (o.outputDir ++ "/configs.json") = .ok ()) :
    (learnNetwork w v sz o c d).trace =
      .learnNetwork v sz ::
      .construct (if o.algoName = "lemontree" then .LemonTree v sz c d
        else .Genomica v sz c d) ::
      .bcast 0 ((w.ifstream o.configFile).getD "") ::
      .read_json ((w.ifstream o.configFile).getD "") ::
      ((if c.is_first = true then
          (if w.is_directory o.outputDir = true then []
            else [.create_directories o.outputDir]) ++
            [.copy_file o.configFile (o.outputDir ++ "/configs.json")]
        else []) ++
        .barrier ::
        .algoLearnNetwork (if o.algoName = "lemontree" then .LemonTree v sz c d
            else .Genomica v sz c d) (decide (c.size > 1) || o.forceParallel) configs
          o.outputDir ::
        (match w.algoLearnNetwork (if o.algoName = "lemontree" then .LemonTree v sz c d
            else .Genomica v sz c d) (decide (c.size > 1) || o.forceParallel) configs
            o.outputDir with
          | .ok _ => [.barrier]
          | .error _ => [])) := by
  have htr := congrArg Run.trace (learnNetwork_run w v sz o c d)
  rw [getAlgorithm_registered v sz o.algoName c d hname, stage_success w o c hdir hcopy] at htr
  simp only [hcfg, call_some, call_some_result] at htr
  rw [htr]
  cases w.algoLearnNetwork (if o.algoName = "lemontree" then .LemonTree v sz c d
      else .Genomica v sz c d) (decide (c.size > 1) || o.forceParallel) configs o.outputDir <;>
    simp

theorem parse_ok_members (w : World T) (argc : Nat) (vm : VariablesMap) (o : ProgramOptions)
    (h : (ProgramOptions.parse w ⟨argc, .ok vm⟩).result = .ok o) :
    ∃ cf, o = { vm.members with m_configFile := cf } := by
  unfold ProgramOptions.parse at h
  simp only [] at h
  split_ifs at h <;>
    simp only [Run.raise, Run.ret, Run.andThen, Run.emit, reduceCtorEq, Except.ok.injEq] at h
  · exact ⟨_, h.symm⟩
  · exact ⟨vm.members.m_configFile, h.symm⟩

end SuccessLemmas

/-- C6, amended: on every process the trace of `learnNetwork<Var, Size, Data>` splits
into a part before staging, the staging events (none unless the process is the
leader) and a part after staging.  The only collective call before staging is the
configuration broadcast: no barrier precedes the staging step.  The part after staging
is empty or starts with a barrier, and the algorithm is invoked in neither the part
before staging nor the staging step.  Whenever the algorithm is registered, the
configuration parses and the leader's staging succeeds, the trace is exactly: entry,
construction, broadcast, parse, the staging events (directory creation when the
directory is missing, then the copy, on the leader only), a barrier immediately after
them, the invocation of the algorithm, and a closing barrier when it returns. -/
theorem learnNetwork_staging_between_broadcast_and_barrier {T : Type} (w : World T) (var : Var)
    (setSize : Nat) (options : ProgramOptions) (comm : Comm) (data : RawData) :
    (∃ pre staging post,
      (learnNetwork w var setSize options comm data).trace = pre ++ staging ++ post ∧
      (∀ e ∈ pre, e.isStaging = false ∧ e.isAlgo = false ∧
        (e.isCollective = true → e = .bcast 0 ((w.ifstream options.m_configFile).getD ""))) ∧
      (∀ e ∈ staging, e.isStaging = true ∧ e.isAlgo = false) ∧
      (comm.is_first = false → staging = []) ∧
      (post = [] ∨ ∃ rest, post = .barrier :: rest ∧ ∀ e ∈ rest, e.isStaging = false)) ∧
    (∀ b, collectiveBeforeStaging (learnNetwork w var setSize options comm data).trace = some b →
      b = .bcast 0 ((w.ifstream options.m_configFile).getD "")) ∧
    (∀ configs,
      (options.m_algoName = "lemontree" ∨ options.m_algoName = "genomica") →
      w.read_json ((w.ifstream options.m_configFile).getD "") = .ok configs →
      (w.is_directory options.m_outputDir = true ∨
        w.create_directories options.m_outputDir = .ok true) →
      w.copy_file options.m_configFile (options.m_outputDir ++ "/configs.json") = .ok () →
      (learnNetwork w var setSize options comm data).trace =
        .learnNetwork var setSize ::
        .construct (if options.m_algoName = "lemontree" then .LemonTree var setSize comm data
          else .Genomica var setSize comm data) ::
        .bcast 0 ((w.ifstream options.m_configFile).getD "") ::
        .read_json ((w.ifstream options.m_configFile).getD "") ::
        ((if comm.is_first = true then
            (if w.is_directory options.m_outputDir = true then []
              else [.create_directories options.m_outputDir]) ++
              [.copy_file options.m_configFile (options.m_outputDir ++ "/configs.json")]
          else []) ++
          .barrier ::
          .algoLearnNetwork (if options.m_algoName = "lemontree" then
              .LemonTree var setSize comm data else .Genomica var setSize comm data)
            (decide (comm.size > 1) || options.m_forceParallel) configs options.m_outputDir ::
          (match w.algoLearnNetwork (if options.m_algoName = "lemontree" then
              .LemonTree var setSize comm data else .Genomica var setSize comm data)
              (decide (comm.size > 1) || options.m_forceParallel) configs
              options.m_outputDir with
            | .ok _ => [.barrier]
            | .error _ => []))) :=
  ⟨(learnNetwork_parts w var setSize options comm data).1,
    (learnNetwork_parts w var setSize options comm data).2,
    fun configs hname hcfg hdir hcopy =>
      learnNetwork_trace_success w var setSize options comm data configs hname hcfg hdir hcopy⟩

/-- C6, amended, at concrete inputs: the leader of a group of two when the output
directory has to be created, and rank 1 of the same group. -/
theorem learnNetwork_staging_between_broadcast_and_barrier_witness :
    ((sampleOptions.m_algoName = "lemontree" ∨ sampleOptions.m_algoName = "genomica") ∧
      sampleWorld.read_json ((sampleWorld.ifstream sampleOptions.m_configFile).getD "") =
        .ok "\x7b\x7d" ∧
      (({ sampleWorld with is_directory := fun _ => false } : World String).is_directory
          sampleOptions.m_outputDir = true ∨
        ({ sampleWorld with is_directory := fun _ => false } : World String).create_directories
          sampleOptions.m_outputDir = .ok true) ∧
      sampleWorld.copy_file sampleOptions.m_configFile
        (sampleOptions.m_outputDir ++ "/configs.json") = .ok ()) ∧
    (learnNetwork { sampleWorld with is_directory := fun _ => false } .uint16_t 32768
        sampleOptions ⟨0, 2⟩ ⟨.double, .uint16_t, 500, 20000⟩).trace =
      [.learnNetwork .uint16_t 32768,
        .construct (.LemonTree .uint16_t 32768 ⟨0, 2⟩ ⟨.double, .uint16_t, 500, 20000⟩),
        .bcast 0 "\x7b\x7d", .read_json "\x7b\x7d",
        .create_directories ".",
        .copy_file "lemontree_configs.json" "./configs.json",
        .barrier,
        .algoLearnNetwork
          (.LemonTree .uint16_t 32768 ⟨0, 2⟩ ⟨.double, .uint16_t, 500, 20000⟩) true
          "\x7b\x7d" ".",
        .barrier] ∧
    (learnNetwork { sampleWorld with is_directory := fun _ => false } .uint16_t 32768
        sampleOptions ⟨1, 2⟩ ⟨.double, .uint16_t, 500, 20000⟩).trace =
      [.learnNetwork .uint16_t 32768,
        .construct (.LemonTree .uint16_t 32768 ⟨1, 2⟩ ⟨.double, .uint16_t, 500, 20000⟩),
        .bcast 0 "\x7b\x7d", .read_json "\x7b\x7d",
        .barrier,
        .algoLearnNetwork
          (.LemonTree .uint16_t 32768 ⟨1, 2⟩ ⟨.double, .uint16_t, 500, 20000⟩) true
          "\x7b\x7d" ".",
        .barrier] :=
  ⟨⟨Or.inl rfl, rfl, Or.inr rfl, rfl⟩,
    (learnNetwork_staging_between_broadcast_and_barrier
      { sampleWorld with is_directory := fun _ => false } .uint16_t 32768 sampleOptions ⟨0, 2⟩
      ⟨.double, .uint16_t, 500, 20000⟩).2.2 "\x7b\x7d" (Or.inl rfl) rfl (Or.inr rfl) rfl,
    (learnNetwork_staging_between_broadcast_and_barrier
      { sampleWorld with is_directory := fun _ => false } .uint16_t 32768 sampleOptions ⟨1, 2⟩
      ⟨.double, .uint16_t, 500, 20000⟩).2.2 "\x7b\x7d" (Or.inl rfl) rfl (Or.inr rfl) rfl⟩






/-- C7: in a group of size `p ≥ 1`, every invocation of the algorithm by
`learnNetwork<Var, Size, Data>` passes the flag `(p > 1) || m_forceParallel`, the parse
of the broadcast configuration text and the member `m_outputDir`; the flag is false
exactly when `p = 1` and the override is not set; when the algorithm is registered, the
configuration parses and the leader's staging succeeds, the algorithm is invoked with
these arguments; and after construction and parse `m_forceParallel` is the `parallel`
switch of the command line and `m_outputDir` the `outdir` option ("." when absent). -/
theorem learnNetwork_passes_parallel_flag {T : Type} (w : World T) (var : Var)
    (setSize : Nat) (options : ProgramOptions) (comm : Comm) (data : RawData)
    (hp : 1 ≤ comm.size) :
    (∀ a isParallel configs outputDir,
      Event.algoLearnNetwork a isParallel configs outputDir ∈
          (learnNetwork w var setSize options comm data).trace →
        isParallel = (decide (comm.size > 1) || options.m_forceParallel) ∧
        w.read_json ((w.ifstream options.m_configFile).getD "") = .ok configs ∧
        Event.bcast 0 ((w.ifstream options.m_configFile).getD "") ∈
          (learnNetwork w var setSize options comm data).trace ∧
        outputDir = options.m_outputDir) ∧
    ((decide (comm.size > 1) || options.m_forceParallel) = false ↔
      (comm.size = 1 ∧ options.m_forceParallel = false)) ∧
    (∀ configs,
      (options.m_algoName = "lemontree" ∨ options.m_algoName = "genomica") →
      w.read_json ((w.ifstream options.m_configFile).getD "") = .ok configs →
      (w.is_directory options.m_outputDir = true ∨
        w.create_directories options.m_outputDir = .ok true) →
      w.copy_file options.m_configFile (options.m_outputDir ++ "/configs.json") = .ok () →
      ∃ a, Event.algoLearnNetwork a (decide (comm.size > 1) || options.m_forceParallel)
        configs options.m_outputDir ∈ (learnNetwork w var setSize options comm data).trace) ∧
    (∀ (LOGGING : Bool) (argc : Nat) (g : GivenOptions),
      (ProgramOptions.parse w
        (CommandLine.ofGiven LOGGING ProgramOptions.ProgramOptions argc g)).result =
          .ok options →
      options.m_forceParallel = g.parallel ∧ options.m_outputDir = g.outdir.getD ".") := by
  refine ⟨(algoLearnNetwork_arguments w var setSize options comm data hp).1,
    (algoLearnNetwork_arguments w var setSize options comm data hp).2.1, ?_, ?_⟩
  · intro configs hname hcfg hdir hcopy
    refine ⟨if options.m_algoName = "lemontree" then .LemonTree var setSize comm data
      else .Genomica var setSize comm data, ?_⟩
    rw [learnNetwork_trace_success w var setSize options comm data configs hname hcfg hdir
      hcopy]
    simp only [List.mem_cons, List.mem_append]
    exact Or.inr (Or.inr (Or.inr (Or.inr (Or.inr (Or.inr (Or.inl rfl))))))
  · intro LOGGING argc g hparse
    obtain ⟨cf, hcf⟩ := parse_ok_members w argc _ options hparse
    rw [hcf]
    exact ⟨rfl, rfl⟩

/-- C7, at concrete inputs: a single process with `--parallel` given invokes the
algorithm with the flag true; without the switch a single process passes false and
rank 1 of a group of two passes true. -/
theorem learnNetwork_passes_parallel_flag_witness :
    ((ProgramOptions.parse sampleWorld (CommandLine.ofGiven false ProgramOptions.ProgramOptions
        10 { sampleGiven with parallel := true })).result =
        .ok { sampleOptions with
          m_dataFile := "cells.loom"
          m_separator := ','
          m_h5ObsDataPath := "col_attrs/Barcode"
          m_forceParallel := true } ∧
      1 ≤ (⟨0, 1⟩ : Comm).size ∧ 1 ≤ (⟨1, 2⟩ : Comm).size) ∧
    (∃ a, Event.algoLearnNetwork a true "\x7b\x7d" "." ∈
      (learnNetwork sampleWorld .uint16_t 32768
        { sampleOptions with
          m_dataFile := "cells.loom"
          m_separator := ','
          m_h5ObsDataPath := "col_attrs/Barcode"
          m_forceParallel := true } ⟨0, 1⟩ ⟨.double, .uint16_t, 500, 20000⟩).trace) ∧
    (({ sampleOptions with
          m_dataFile := "cells.loom"
          m_separator := ','
          m_h5ObsDataPath := "col_attrs/Barcode"
          m_forceParallel := true } : ProgramOptions).m_forceParallel =
        ({ sampleGiven with parallel := true } : GivenOptions).parallel) ∧
    (∃ a, Event.algoLearnNetwork a false "\x7b\x7d" "." ∈
      (learnNetwork sampleWorld .uint16_t 32768 sampleOptions ⟨0, 1⟩
        ⟨.double, .uint16_t, 500, 20000⟩).trace) ∧
    (∃ a, Event.algoLearnNetwork a true "\x7b\x7d" "." ∈
      (learnNetwork sampleWorld .uint16_t 32768 sampleOptions ⟨1, 2⟩
        ⟨.double, .uint16_t, 500, 20000⟩).trace) :=
  ⟨⟨rfl, by decide, by decide⟩,
    (learnNetwork_passes_parallel_flag sampleWorld .uint16_t 32768
      { sampleOptions with
        m_dataFile := "cells.loom"
        m_separator := ','
        m_h5ObsDataPath := "col_attrs/Barcode"
        m_forceParallel := true } ⟨0, 1⟩ ⟨.double, .uint16_t, 500, 20000⟩
      (by decide)).2.2.1 "\x7b\x7d" (Or.inl rfl) rfl (Or.inl rfl) rfl,
    ((learnNetwork_passes_parallel_flag sampleWorld .uint16_t 32768
      { sampleOptions with
        m_dataFile := "cells.loom"
        m_separator := ','
        m_h5ObsDataPath := "col_attrs/Barcode"
        m_forceParallel := true } ⟨0, 1⟩ ⟨.double, .uint16_t, 500, 20000⟩
      (by decide)).2.2.2 false 10 { sampleGiven with parallel := true } rfl).1,
    (learnNetwork_passes_parallel_flag sampleWorld .uint16_t 32768 sampleOptions ⟨0, 1⟩
      ⟨.double, .uint16_t, 500, 20000⟩ (by decide)).2.2.1 "\x7b\x7d" (Or.inl rfl) rfl
      (Or.inl rfl) rfl,
    (learnNetwork_passes_parallel_flag sampleWorld .uint16_t 32768 sampleOptions ⟨1, 2⟩
      ⟨.double, .uint16_t, 500, 20000⟩ (by decide)).2.2.1 "\x7b\x7d" (Or.inl rfl) rfl
      (Or.inl rfl) rfl⟩

/-! ## Warm-up -/

/-- C10 fails on the code at the output directory: on the leader, when the output
directory does not exist and `fs::create_directories` returns false, the
`po::error` thrown by the staging block is not a `std::runtime_error`, matches no
handler and leaves `main` uncaught, so `main` returns no exit status.  The sibling
failures are handled: a `filesystem_error` from the same call, and a failed option
parse, both make `main` return 1. -/
theorem main_output_dir_error_escapes :
    (main UintSet worldWithoutOutputDir sampleCommandLine ⟨0, 1⟩).result =
      .error (.po_error "Output directory doesn\x27t exist and could not be created") ∧
    (main UintSet worldWithoutOutputDir sampleCommandLine ⟨0, 1⟩).trace =
      [.barrier,
        .cerr "Using the default configuration file for the algorithm: lemontree_configs.json",
        .reader .RowObservationReader .double "data.tsv" 500 20000 ["\t"],
        .barrier,
        .RawData ⟨.double, .uint16_t, 500, 20000⟩,
        .learnNetwork .uint16_t 32768,
        .construct (.LemonTree .uint16_t 32768 ⟨0, 1⟩ ⟨.double, .uint16_t, 500, 20000⟩),
        .bcast 0 "\x7b\x7d", .read_json "\x7b\x7d",
        .create_directories "."] ∧
    (main UintSet worldWithFailingCreate sampleCommandLine ⟨0, 1⟩).result = .ok 1 ∧
    (main UintSet sampleWorld ⟨1, .ok ⟨sampleOptions, false, false, false⟩⟩ ⟨0, 2⟩) =
      ⟨[.barrier, .cerr "Parallel Construction of Module Networks"], .ok 1⟩ ∧
    (main UintSet sampleWorld ⟨1, .ok ⟨sampleOptions, false, false, false⟩⟩ ⟨1, 2⟩) =
      ⟨[.barrier], .ok 1⟩ ∧
    (main UintSet sampleWorld sampleCommandLine ⟨0, 1⟩).result = .ok 0 := by
  refine ⟨?_, ?_, ?_, ?_, ?_, ?_⟩ <;> rfl

/-! ## Reader selection -/

section ReaderLemmas

variable {T α : Type}

theorem endsWith_iff (str suffix : String) :
    endsWith str suffix = true ↔ ∃ p : String, str = p ++ suffix := by
  unfold endsWith
  simp only [Bool.and_eq_true, decide_eq_true_eq, beq_iff_eq, String.length]
  constructor
  · rintro ⟨_, hdrop⟩
    refine ⟨⟨str.data.take (str.data.length - suffix.data.length)⟩, ?_⟩
    apply String.ext
    have htd := List.take_append_drop (str.data.length - suffix.data.length) str.data
    rw [hdrop] at htd
    rw [String.data_append]
    exact htd.symm
  · rintro ⟨p, rfl⟩
    simp

theorem firstReader_append_of_not_ingestion (pre t : List (Event T))
    (h : ∀ e ∈ pre, e.isIngestion = false) : firstReader (pre ++ t) = firstReader t := by
  induction pre with
  | nil => rfl
  | cons a pre ih =>
    have ha := h a (by simp)
    have := ih (fun e he => h e (by simp [he]))
    cases a <;> simp_all [firstReader, Event.isIngestion]

theorem firstReader_append_of_some (a b : List (Event T)) (r : Event T)
    (h : firstReader a = some r) : firstReader (a ++ b) = some r := by
  induction a with
  | nil => simp [firstReader] at h
  | cons e a ih =>
    cases e <;> simp_all [firstReader]

theorem tryCatch_trace (x : Run T α) (handler : Exception → Option (Run T α)) :
    ∃ rest, (x.tryCatch handler).trace = x.trace ++ rest := by
  unfold Run.tryCatch
  split
  · exact ⟨[], by simp⟩
  · split
    · exact ⟨_, rfl⟩
    · exact ⟨[], by simp⟩

theorem firstReader_tryBody (U : UintSetDecl) (w : World T) (o : ProgramOptions) (c : Comm) :
    firstReader (main.tryBody U w o c).trace = some
      (if (endsWith o.dataFile "hdf5" || endsWith o.dataFile ".h5" ||
          endsWith o.dataFile ".loom" || endsWith o.dataFile ".h5ad") = true then
        .reader .HDF5ObservationReader .float o.dataFile o.numVars o.numObs
          [o.h5root, o.h5matrixPath, o.h5obsPath, o.h5varPath]
      else if o.colObs = true then
        .reader .ColumnObservationReader .double o.dataFile o.numVars o.numObs
          [String.singleton o.separator]
      else
        .reader .RowObservationReader .double o.dataFile o.numVars o.numObs
          [String.singleton o.separator]) := by
  simp only [main.tryBody, Run.bind_eq, Run.pure_eq]
  generalize learn_network U w .float o c = Lf
  generalize learn_network U w .double o c = Ld
  generalize (endsWith o.dataFile "hdf5" || endsWith o.dataFile ".h5" ||
          endsWith o.dataFile ".loom" || endsWith o.dataFile ".h5ad") = cond
  by_cases hm : 65536 ≤ o.numObs <;> cases cond <;> cases o.colObs <;>
    cases w.reader .HDF5ObservationReader o.dataFile <;>
    cases w.reader .ColumnObservationReader o.dataFile <;>
    cases w.reader .RowObservationReader o.dataFile <;>
    simp [hm, Run.bind_eq, Run.pure_eq, Run.andThen, Run.emit, Run.ret, Run.raise, firstReader]

theorem firstReader_main (U : UintSetDecl) (w : World T) (cl : CommandLine) (c : Comm)
    (o : ProgramOptions) (hparse : (ProgramOptions.parse w cl).result = .ok o) :
    firstReader (main U w cl c).trace = firstReader (main.tryBody U w o c).trace := by
  obtain ⟨r, hr⟩ : ∃ r, firstReader (main.tryBody U w o c).trace = some r :=
    ⟨_, firstReader_tryBody U w o c⟩
  rw [main_of_parse_ok U w cl c o hparse, warmup_eq]
  have hpre : ∀ e ∈ (Event.barrier :: (ProgramOptions.parse w cl).trace ++
      (main.hostNames w o c).trace) ++
      (if decide (c.size > 1) && o.warmupMPI then
          [.barrier, .all2all 1 c.size c.size,
            .all2allv c.size (List.replicate c.size 1) (List.range c.size)
              c.size (List.replicate c.size 1) (List.range c.size), .barrier]
        else []), e.isIngestion = false := by
    intro e he
    rcases List.mem_append.1 he with he | he
    · rcases List.mem_append.1 he with he | he
      · rcases List.mem_cons.1 he with rfl | he
        · rfl
        · exact (parse_trace w cl e he).2
      · exact ((hostNames_ok w o c).2 e he).2
    · split_ifs at he
      · simp only [List.mem_cons, List.mem_singleton, List.not_mem_nil, or_false] at he
        rcases he with rfl | rfl | rfl | rfl <;> rfl
      · cases he
  simp only []
  rw [firstReader_append_of_not_ingestion _ _ hpre, hr]
  obtain ⟨rest, hrest⟩ := tryCatch_trace
    ((main.tryBody U w o c).andThen fun _ => (Run.ret 0 : Run T Int))
    (fun e => match e with
      | .runtime_error what => some do
          Run.emit (.cerr "Encountered runtime error during execution:")
          Run.emit (.cerr what)
          Run.emit (.cerr "Aborting.")
          return 1
      | _ => none)
  have hexec : (main.execute U w o c).trace =
      ((main.tryBody U w o c).andThen fun _ => (Run.ret 0 : Run T Int)).trace ++ rest := hrest
  rw [hexec, Run.trace_andThen]
  exact firstReader_append_of_some _ _ r (firstReader_append_of_some _ _ r hr)

end ReaderLemmas

/-- The function `endsWith` as a suffix test, and the first reader `main` constructs. -/
theorem reader_choice {T : Type} (U : UintSetDecl) (w : World T)
    (cl : CommandLine) (comm : Comm) (options : ProgramOptions)
    (hparse : (ProgramOptions.parse w cl).result = .ok options) :
    (∀ str suffix : String, endsWith str suffix = true ↔ ∃ p : String, str = p ++ suffix) ∧
    (∀ str suffix : String, str.length < suffix.length → endsWith str suffix = false) ∧
    (∀ str : String, endsWith str "" = true) ∧
    ((∃ suffix ∈ ["hdf5", ".h5", ".loom", ".h5ad"], ∃ p : String,
        options.dataFile = p ++ suffix) →
      firstReader (main U w cl comm).trace = some
        (.reader .HDF5ObservationReader .float options.dataFile options.numVars options.numObs
          [options.h5root, options.h5matrixPath, options.h5obsPath, options.h5varPath])) ∧
    ((¬ ∃ suffix ∈ ["hdf5", ".h5", ".loom", ".h5ad"], ∃ p : String,
        options.dataFile = p ++ suffix) → options.colObs = true →
      firstReader (main U w cl comm).trace = some
        (.reader .ColumnObservationReader .double options.dataFile options.numVars
          options.numObs [String.singleton options.separator])) ∧
    ((¬ ∃ suffix ∈ ["hdf5", ".h5", ".loom", ".h5ad"], ∃ p : String,
        options.dataFile = p ++ suffix) → options.colObs = false →
      firstReader (main U w cl comm).trace = some
        (.reader .RowObservationReader .double options.dataFile options.numVars
          options.numObs [String.singleton options.separator])) := by
  have hcond : (endsWith options.dataFile "hdf5" || endsWith options.dataFile ".h5" ||
      endsWith options.dataFile ".loom" || endsWith options.dataFile ".h5ad") = true ↔
      ∃ suffix ∈ ["hdf5", ".h5", ".loom", ".h5ad"], ∃ p : String,
        options.dataFile = p ++ suffix := by
    simp only [Bool.or_eq_true, endsWith_iff, List.mem_cons, List.mem_singleton,
      List.not_mem_nil, or_false, exists_eq_or_imp, exists_eq_left, or_assoc]
  have hmain := firstReader_main U w cl comm options hparse
  rw [firstReader_tryBody] at hmain
  refine ⟨endsWith_iff, ?_, ?_, ?_, ?_, ?_⟩
  · intro str suffix hlt
    cases h : endsWith str suffix
    · rfl
    · obtain ⟨p, rfl⟩ := (endsWith_iff str suffix).1 h
      simp at hlt
  · intro str
    exact (endsWith_iff str "").2 ⟨str, by simp⟩
  · intro h
    rw [hmain, if_pos (hcond.2 h)]
  · intro h hcol
    rw [hmain, if_neg (fun hc => h (hcond.1 hc)), if_pos hcol]
  · intro h hcol
    rw [hmain, if_neg (fun hc => h (hcond.1 hc)), if_neg (by simp [hcol])]

/-! ## The HDF5 path accessors -/

section AccessorLemmas

variable {T : Type}

theorem parse_h5obs (w : World T) (argc : Nat) (vm : VariablesMap) (y : String) :
    ProgramOptions.parse w ⟨argc, .ok { vm with members := { vm.members with m_h5ObsDataPath := y } }⟩ =
      ⟨(ProgramOptions.parse w ⟨argc, .ok vm⟩).trace,
        match (ProgramOptions.parse w ⟨argc, .ok vm⟩).result with
        | .ok o => .ok { o with m_h5ObsDataPath := y }
        | .error e => .error e⟩ := by
  unfold ProgramOptions.parse
  simp only []
  split_ifs <;> rfl

theorem hostNames_h5obs (w : World T) (o : ProgramOptions) (c : Comm) (y : String) :
    main.hostNames w { o with m_h5ObsDataPath := y } c = main.hostNames w o c := rfl

theorem warmup_h5obs (o : ProgramOptions) (c : Comm) (y : String) :
    (main.warmup { o with m_h5ObsDataPath := y } c : Run T Unit) = main.warmup o c := rfl

theorem learnNetwork_h5obs (w : World T) (v : Var) (sz : Nat) (o : ProgramOptions) (c : Comm)
    (d : RawData) (y : String) :
    learnNetwork w v sz { o with m_h5ObsDataPath := y } c d = learnNetwork w v sz o c d := rfl

theorem branch_h5obs (w : World T) (dt : DataType) (v : Var) (sz : Nat) (o : ProgramOptions)
    (c : Comm) (n m : Nat) (y : String) :
    Reader.branch w dt v sz { o with m_h5ObsDataPath := y } c n m =
      Reader.branch w dt v sz o c n m := rfl

theorem learn_network_h5obs (U : UintSetDecl) (w : World T) (dt : DataType)
    (o : ProgramOptions) (c : Comm) (y : String) :
    learn_network U w dt { o with m_h5ObsDataPath := y } c = learn_network U w dt o c := rfl

theorem execute_h5obs (U : UintSetDecl) (w : World T) (o : ProgramOptions) (c : Comm)
    (y : String) :
    main.execute U w { o with m_h5ObsDataPath := y } c = main.execute U w o c := rfl

theorem main_h5obs (U : UintSetDecl) (w : World T) (argc : Nat) (vm : VariablesMap) (c : Comm)
    (y : String) :
    main U w ⟨argc, .ok { vm with members := { vm.members with m_h5ObsDataPath := y } }⟩ c =
      main U w ⟨argc, .ok vm⟩ c := by
  unfold main main.parseOptions
  rw [parse_h5obs]
  rcases ProgramOptions.parse w ⟨argc, .ok vm⟩ with ⟨pt, pr⟩
  cases pr with
  | error e => rfl
  | ok o =>
    simp only [Run.bind_eq, Run.pure_eq, Run.andThen, Run.tryCatch, Run.ret, Run.emit,
      hostNames_h5obs, warmup_h5obs, execute_h5obs]

end AccessorLemmas

/-- C11: `endsWith str suffix` holds if and only if `str` is some string followed by
`suffix`; it is false when `suffix` is longer than `str` and true for the empty
suffix.  After a successful option parse, the first reader `main` constructs is the
HDF5 reader in single precision when the data file name `m_dataFile` ends in "hdf5",
".h5", ".loom" or ".h5ad"; otherwise it is a delimited-text reader in double precision,
the column-oriented one when `m_colObs` is set and the row-oriented one when it is
not; and after construction and parse `m_colObs` is the `colobs` switch of the command
line and `m_dataFile` the `file` option. -/
theorem endsWith_suffix_and_reader_choice {T : Type} (U : UintSetDecl) (w : World T)
    (cl : CommandLine) (comm : Comm) (options : ProgramOptions)
    (hparse : (ProgramOptions.parse w cl).result = .ok options) :
    (∀ str suffix : String, endsWith str suffix = true ↔ ∃ p : String, str = p ++ suffix) ∧
    (∀ str suffix : String, str.length < suffix.length → endsWith str suffix = false) ∧
    (∀ str : String, endsWith str "" = true) ∧
    ((∃ suffix ∈ ["hdf5", ".h5", ".loom", ".h5ad"], ∃ p : String,
        options.m_dataFile = p ++ suffix) →
      firstReader (main U w cl comm).trace = some
        (.reader .HDF5ObservationReader .float options.m_dataFile options.m_numVars
          options.m_numObs
          [options.m_h5Path, options.m_h5MatrixDataPath, options.m_h5VarsDataPath,
            options.m_h5VarsDataPath])) ∧
    ((¬ ∃ suffix ∈ ["hdf5", ".h5", ".loom", ".h5ad"], ∃ p : String,
        options.m_dataFile = p ++ suffix) → options.m_colObs = true →
      firstReader (main U w cl comm).trace = some
        (.reader .ColumnObservationReader .double options.m_dataFile options.m_numVars
          options.m_numObs [String.singleton options.m_separator])) ∧
    ((¬ ∃ suffix ∈ ["hdf5", ".h5", ".loom", ".h5ad"], ∃ p : String,
        options.m_dataFile = p ++ suffix) → options.m_colObs = false →
      firstReader (main U w cl comm).trace = some
        (.reader .RowObservationReader .double options.m_dataFile options.m_numVars
          options.m_numObs [String.singleton options.m_separator])) ∧
    (∀ (LOGGING : Bool) (argc : Nat) (g : GivenOptions),
      cl = CommandLine.ofGiven LOGGING ProgramOptions.ProgramOptions argc g →
      options.m_colObs = g.colobs ∧ options.m_dataFile = g.file.getD "") := by
  obtain ⟨h1, h2, h3, h4, h5, h6⟩ := reader_choice U w cl comm options hparse
  refine ⟨h1, h2, h3, h4, h5, h6, ?_⟩
  intro LOGGING argc g hcl
  rw [hcl] at hparse
  obtain ⟨cf, hcf⟩ := parse_ok_members w argc _ options hparse
  rw [hcf]
  exact ⟨rfl, rfl⟩

/-- C11, at concrete inputs: with `-c` given and the file `data.tsv` the column reader
is constructed; without `-c` the row reader; the file `cells.loom` is read by the HDF5
reader. -/
theorem endsWith_suffix_and_reader_choice_witness :
    ((ProgramOptions.parse sampleWorld (CommandLine.ofGiven false ProgramOptions.ProgramOptions
        10 { sampleGiven with file := some "data.tsv", colobs := true })).result =
        .ok { sampleOptions with
          m_separator := ','
          m_h5ObsDataPath := "col_attrs/Barcode"
          m_colObs := true } ∧
      (¬ ∃ suffix ∈ ["hdf5", ".h5", ".loom", ".h5ad"], ∃ p : String,
        "data.tsv" = p ++ suffix)) ∧
    firstReader (main UintSet sampleWorld (CommandLine.ofGiven false
        ProgramOptions.ProgramOptions 10
        { sampleGiven with file := some "data.tsv", colobs := true }) ⟨0, 1⟩).trace = some
      (.reader .ColumnObservationReader .double "data.tsv" 500 20000 [","]) ∧
    (({ sampleOptions with
          m_separator := ','
          m_h5ObsDataPath := "col_attrs/Barcode"
          m_colObs := true } : ProgramOptions).m_colObs =
        ({ sampleGiven with file := some "data.tsv", colobs := true } : GivenOptions).colobs) ∧
    firstReader (main UintSet sampleWorld sampleCommandLine ⟨0, 1⟩).trace = some
      (.reader .RowObservationReader .double "data.tsv" 500 20000 ["\t"]) ∧
    firstReader (main UintSet sampleWorld
        (CommandLine.ofGiven false ProgramOptions.ProgramOptions 9 sampleGiven) ⟨0, 1⟩).trace =
      some (.reader .HDF5ObservationReader .float "cells.loom" 500 20000
        ["/", "matrix", "row_attrs/Gene", "row_attrs/Gene"]) :=
  have hno : ¬ ∃ suffix ∈ ["hdf5", ".h5", ".loom", ".h5ad"], ∃ p : String,
      "data.tsv" = p ++ suffix := by
    intro ⟨suffix, hmem, hp⟩
    have hends := (endsWith_iff "data.tsv" suffix).2 hp
    simp only [List.mem_cons, List.mem_singleton, List.not_mem_nil, or_false] at hmem
    rcases hmem with rfl | rfl | rfl | rfl <;> exact absurd hends (by decide)
  have hyes : ∃ suffix ∈ ["hdf5", ".h5", ".loom", ".h5ad"], ∃ p : String,
      "cells.loom" = p ++ suffix := ⟨".loom", by simp, "cells", by decide⟩
  ⟨⟨rfl, hno⟩,
    (endsWith_suffix_and_reader_choice UintSet sampleWorld
      (CommandLine.ofGiven false ProgramOptions.ProgramOptions 10
        { sampleGiven with file := some "data.tsv", colobs := true }) ⟨0, 1⟩
      { sampleOptions with
        m_separator := ','
        m_h5ObsDataPath := "col_attrs/Barcode"
        m_colObs := true } rfl).2.2.2.2.1 hno rfl,
    ((endsWith_suffix_and_reader_choice UintSet sampleWorld
      (CommandLine.ofGiven false ProgramOptions.ProgramOptions 10
        { sampleGiven with file := some "data.tsv", colobs := true }) ⟨0, 1⟩
      { sampleOptions with
        m_separator := ','
        m_h5ObsDataPath := "col_attrs/Barcode"
        m_colObs := true } rfl).2.2.2.2.2.2 false 10
        { sampleGiven with file := some "data.tsv", colobs := true } rfl).1,
    (endsWith_suffix_and_reader_choice UintSet sampleWorld sampleCommandLine ⟨0, 1⟩
      sampleOptions rfl).2.2.2.2.2.1 hno rfl,
    (endsWith_suffix_and_reader_choice UintSet sampleWorld
      (CommandLine.ofGiven false ProgramOptions.ProgramOptions 9 sampleGiven) ⟨0, 1⟩
      { sampleOptions with
        m_dataFile := "cells.loom"
        m_separator := ','
        m_h5ObsDataPath := "col_attrs/Barcode" } rfl).2.2.2.1 hyes⟩




/-- C12: `h5obsPath()` equals `h5varPath()` in every state.  After construction and a
successful parse both return the value given for the `h5var` option, "row_attrs/Gene"
when it is absent, while the value given for `h5obs` ("col_attrs/CellID" when absent)
sits in a member no accessor returns: replacing it by any other value changes no
accessor of the parsed options and nothing in the run of `main`, the reader included. -/
theorem h5obsPath_returns_h5var_path {T : Type} (U : UintSetDecl) (w : World T)
    (LOGGING : Bool) (argc : Nat) (g : GivenOptions) (comm : Comm) :
    (∀ o : ProgramOptions, o.h5obsPath = o.h5varPath) ∧
    (∀ options,
      (ProgramOptions.parse w
        (CommandLine.ofGiven LOGGING ProgramOptions.ProgramOptions argc g)).result =
          .ok options →
      options.h5obsPath = g.h5var.getD "row_attrs/Gene" ∧
      options.h5varPath = g.h5var.getD "row_attrs/Gene" ∧
      options.m_h5ObsDataPath = g.h5obs.getD "col_attrs/CellID" ∧
      ∀ x, ∃ changed,
        (ProgramOptions.parse w
          (CommandLine.ofGiven LOGGING ProgramOptions.ProgramOptions argc
            { g with h5obs := x })).result = .ok changed ∧
        changed.observable = options.observable) ∧
    (∀ x,
      main U w (CommandLine.ofGiven LOGGING ProgramOptions.ProgramOptions argc
          { g with h5obs := x }) comm =
        main U w (CommandLine.ofGiven LOGGING ProgramOptions.ProgramOptions argc g) comm) := by
  have hcl : ∀ x, CommandLine.ofGiven LOGGING ProgramOptions.ProgramOptions argc
      { g with h5obs := x } =
      ⟨argc, .ok { po.notify LOGGING ProgramOptions.ProgramOptions g with
        members := { (po.notify LOGGING ProgramOptions.ProgramOptions g).members with
          m_h5ObsDataPath := x.getD "col_attrs/CellID" } }⟩ := fun _ => rfl
  refine ⟨fun _ => rfl, ?_, ?_⟩
  · intro options hparse
    obtain ⟨cf, rfl⟩ := parse_ok_members w argc _ options hparse
    refine ⟨rfl, rfl, rfl, ?_⟩
    intro x
    rw [hcl x, parse_h5obs]
    have hparse2 : (ProgramOptions.parse w
        ⟨argc, .ok (po.notify LOGGING ProgramOptions.ProgramOptions g)⟩).result =
        .ok { (po.notify LOGGING ProgramOptions.ProgramOptions g).members with
          m_configFile := cf } := hparse
    simp only [hparse2]
    exact ⟨_, rfl, rfl⟩
  · intro x
    rw [hcl x]
    exact main_h5obs U w argc _ comm _

/-- C12, at a concrete input: with `--h5obs col_attrs/Barcode` given and `--h5var`
absent, both accessors return "row_attrs/Gene" and the HDF5 reader receives it twice. -/
theorem h5obsPath_returns_h5var_path_witness :
    (ProgramOptions.parse sampleWorld
        (CommandLine.ofGiven false ProgramOptions.ProgramOptions 9 sampleGiven)).result =
      .ok { sampleOptions with
        m_dataFile := "cells.loom"
        m_separator := ','
        m_h5ObsDataPath := "col_attrs/Barcode" } ∧
    (({ sampleOptions with
        m_dataFile := "cells.loom"
        m_separator := ','
        m_h5ObsDataPath := "col_attrs/Barcode" } : ProgramOptions).h5obsPath =
        "row_attrs/Gene" ∧
      ({ sampleOptions with
        m_dataFile := "cells.loom"
        m_separator := ','
        m_h5ObsDataPath := "col_attrs/Barcode" } : ProgramOptions).h5varPath =
        "row_attrs/Gene" ∧
      ({ sampleOptions with
        m_dataFile := "cells.loom"
        m_separator := ','
        m_h5ObsDataPath := "col_attrs/Barcode" } : ProgramOptions).m_h5ObsDataPath =
        "col_attrs/Barcode") ∧
    firstReader (main UintSet sampleWorld
        (CommandLine.ofGiven false ProgramOptions.ProgramOptions 9 sampleGiven) ⟨0, 1⟩).trace =
      some (.reader .HDF5ObservationReader .float "cells.loom" 500 20000
        ["/", "matrix", "row_attrs/Gene", "row_attrs/Gene"]) :=
  have h := (h5obsPath_returns_h5var_path UintSet sampleWorld false 9 sampleGiven ⟨0, 1⟩).2.1
    { sampleOptions with
      m_dataFile := "cells.loom"
      m_separator := ','
      m_h5ObsDataPath := "col_attrs/Barcode" } rfl
  ⟨rfl, ⟨h.1, h.2.1, h.2.2.1⟩, rfl⟩

/-! ## Narrowing of the counts -/

/-- C13 fails on the code at the upper end of the full-range tiers: for 256 variables
and one observation `s - 1 = 255` fits the capacity 255 of the full-range 8-bit tier,
which the dispatcher enters with `static_cast<uint8_t>(256) = 0` variables in
`RawData`; likewise 65536 observations enter the full-range 16-bit tier with
`static_cast<uint16_t>(65536) = 0` observations.  One less, 255 variables, is
carried unchanged. -/
theorem dispatch_narrowing_loses_full_range_counts :
    (Reader.learnNetwork UintSet sampleWorld .double
        { sampleOptions with m_numVars := 256, m_numObs := 1 } ⟨0, 1⟩).trace.take 2 =
      [.RawData ⟨.double, .uint8_t, 0, 1⟩, .learnNetwork .uint8_t 256] ∧
    tierCapacity UintSet 2 = 255 ∧ sub32 (max 256 1) 1 = 255 ∧ static_cast .uint8_t 256 = 0 ∧
    (Reader.learnNetwork UintSet sampleWorld .double
        { sampleOptions with m_numVars := 3, m_numObs := 65536 } ⟨0, 1⟩).trace.take 2 =
      [.RawData ⟨.double, .uint16_t, 3, 0⟩, .learnNetwork .uint16_t 65536] ∧
    tierCapacity UintSet 10 = 65535 ∧ sub32 (max 3 65536) 1 = 65535 ∧
    static_cast .uint16_t 65536 = 0 ∧
    (Reader.learnNetwork UintSet sampleWorld .double
        { sampleOptions with m_numVars := 255, m_numObs := 1 } ⟨0, 1⟩).trace.take 2 =
      [.RawData ⟨.double, .uint8_t, 255, 1⟩, .learnNetwork .uint8_t 256] := by
  refine ⟨?_, ?_, ?_, ?_, ?_, ?_, ?_, ?_, ?_⟩ <;> rfl

end ParsiMoNe
